import Mathlib

/-!
# Sale Transaction Engine — shallow embedding

A shallow embedding of the sales/inventory backend (`sales.controller.js`,
`generateSaleNumber.js`, `report.controller.js`, `Product.model.js`) of the
`blcm-sales-and-inventory` repository, together with theorems checking the
specification's claims about it.

Conventions of the embedding:
* JavaScript numbers that carry money (price, subtotal, tax, total) are
  modelled as exact rationals `ℚ`; quantities are `ℕ`; stock counts are `ℤ`
  (so that the non-negativity invariant is a real statement).
* Timestamps are milliseconds since the Unix epoch (`ℕ`).  The server's
  timezone is a parameter `off`: the number of milliseconds the local clock
  runs ahead of UTC (`Date#setHours` works on the local clock, while
  `Date#toISOString` works on UTC).
* The Mongo collections are association lists; `Product.find {_id: {$in: ids}}`
  is a filter, `doc.save()` writes the in-memory document back by key.
* The `async` handlers are embedded as pure state transformers on a `DB`
  record; each claim about "a sequence of calls" is about the sequential
  execution of those transformers.
-/

/-- A product document (`Product.model.js`).  Only the fields read or written
by the sale transaction engine are carried. -/
structure Product where
  name : String
  price : ℚ
  stockQuantity : ℤ
  isActive : Bool
  deriving DecidableEq

/-- One line item of a persisted sale (`saleItems` entries built by
`createSale`): product reference, quantity, unit-price snapshot and line
subtotal. -/
structure SaleItem where
  product : ℕ
  quantity : ℕ
  price : ℚ
  subtotal : ℚ
  deriving DecidableEq

/-- A sale document.  `Sale.model.js` is not part of the provided sources;
the fields are the ones `createSale` passes to `Sale.create` plus the void
bookkeeping used by `voidSale`.  Modelled from the spec: the `isVoid` flag of a
freshly created sale defaults to `false` ("persist the Sale with
isVoid=false"). -/
structure SaleDoc where
  id : ℕ
  saleNumber : String
  items : List SaleItem
  subtotal : ℚ
  tax : ℚ
  discount : ℚ
  total : ℚ
  isVoid : Bool
  voidedAt : Option ℕ
  createdAt : ℕ
  deriving DecidableEq

/-- The persistent state: the `products` and `sales` collections.  Keys of
`products` are the Mongo `_id`s. -/
structure DB where
  products : List (ℕ × Product)
  sales : List SaleDoc
  deriving DecidableEq

/-- `Product.findById` / lookup in the `productMap`. -/
def lookupProd (ps : List (ℕ × Product)) (id : ℕ) : Option Product :=
  (ps.find? (fun q => q.1 == id)).map (fun q => q.2)

/-- Write a (mutated in memory) document back under its key. -/
def writeProd (ps : List (ℕ × Product)) (id : ℕ) (p : Product) :
    List (ℕ × Product) :=
  ps.map (fun q => if q.1 == id then (id, p) else q)

/-- One cart entry of a `createSale` request body (`items[*]`). -/
structure CartItem where
  product : ℕ
  quantity : ℕ
  deriving DecidableEq

/-! ## Sale numbering (`utils/generateSaleNumber.js`) -/

/-- Milliseconds per calendar day. -/
def msPerDay : ℕ := 86400000

/-- The UTC calendar day index of a timestamp (used by `toISOString`). -/
def utcDay (t : ℕ) : ℕ := t / msPerDay

/-- `new Date(t).setHours(0,0,0,0)` on a server whose local clock runs `off`
milliseconds ahead of UTC: the UTC timestamp of the start of the *local*
calendar day containing `t`. -/
def localDayStart (off t : ℕ) : ℕ := ((t + off) / msPerDay) * msPerDay - off

/-- The decimal digit character of `n % 10` (as produced by JavaScript's
number-to-string conversion). -/
def digitChar (n : ℕ) : Char := Char.ofNat (48 + n % 10)

/-- Decimal rendering, by structural recursion on a fuel argument that the
wrapper `natDigits` instantiates large enough (`n` itself bounds the number
of digits). -/
def natDigitsGo (fuel n : ℕ) : List Char :=
  match fuel with
  | 0 => [digitChar n]
  | fuel + 1 => if n < 10 then [digitChar n] else natDigitsGo fuel (n / 10) ++ [digitChar n]

/-- Decimal rendering of a natural number as a list of characters
(JavaScript's `String(n)` for a non-negative integer). -/
def natDigits (n : ℕ) : List Char := natDigitsGo n n

/-- `String.prototype.padStart(w, c)` on a character list. -/
def padStart (w : ℕ) (c : Char) (s : List Char) : List Char :=
  List.replicate (w - s.length) c ++ s

/-- Gregorian calendar date `(year, month, day)` of a day index counted from
1970-01-01 (the civil-from-days algorithm; this is what
`Date#toISOString().slice(0, 10)` renders). -/
def civilFromDay (day : ℕ) : ℕ × ℕ × ℕ :=
  let z := day + 719468
  let era := z / 146097
  let doe := z % 146097
  let yoe := (doe - doe / 1460 + doe / 36524 - doe / 146096) / 365
  let y := yoe + era * 400
  let doy := doe - (365 * yoe + yoe / 4 - yoe / 100)
  let mp := (5 * doy + 2) / 153
  let d := doy - (153 * mp + 2) / 5 + 1
  if mp < 10 then (y, mp + 3, d) else (y + 1, mp - 9, d)

/-- `date.toISOString().slice(0, 10)` with the dash separators removed: the
`YYYYMMDD` string of the UTC date of `t`. -/
def dateStr (t : ℕ) : List Char :=
  let c := civilFromDay (utcDay t)
  natDigits c.1 ++ padStart 2 '0' (natDigits c.2.1) ++ padStart 2 '0' (natDigits c.2.2)

/-- `Sale.countDocuments({createdAt: {$gte: <local 00:00:00.000>, $lt:
<local 23:59:59.999>}})`: note the window is the *local* day of `t` and that
its last millisecond is excluded (`$lt`). -/
def countSalesToday (off t : ℕ) (sales : List SaleDoc) : ℕ :=
  sales.countP (fun s =>
    decide (localDayStart off t ≤ s.createdAt ∧
      s.createdAt < localDayStart off t + (msPerDay - 1)))

/-- `generateSaleNumber` (`utils/generateSaleNumber.js`): renders
`SALE-<UTC date YYYYMMDD>-<count of today's sales + 1, zero-padded to 4>`,
where "today" for the count is the server-local calendar day. -/
def generateSaleNumber (off t : ℕ) (sales : List SaleDoc) : String :=
  String.mk
    (('S' :: 'A' :: 'L' :: 'E' :: '-' :: dateStr t) ++
      '-' :: padStart 4 '0' (natDigits (countSalesToday off t sales + 1)))

deriving instance DecidableEq for Except

/-! ## `createSale` (`controllers/sales.controller.js`) -/

/-- The typed errors `createSale` can answer with.  `productNotFound none`
is the degenerate 404 in which `productIds.find(...)` is `undefined` (every
requested id was found, but fewer documents than cart lines came back, i.e.
the cart repeats a product). -/
inductive CreateErr
  | productNotFound (id : Option ℕ)
  | insufficientStock (id : ℕ) (available : ℤ) (requested : ℕ)
  deriving DecidableEq

/-- The `for (const item of items)` loop of `createSale`: looks each cart line
up in the product map, rejects it when the product is missing or
`product.stockQuantity < item.quantity`, accumulates `subtotal` and the
`saleItims`-style line snapshots, and decrements the in-memory
`product.stockQuantity`.  Returns the accumulated subtotal, the line items and
the mutated product map. -/
def processItems (pmap : List (ℕ × Product)) (items : List CartItem)
    (subtotal : ℚ) (acc : List SaleItem) :
    Except CreateErr (ℚ × List SaleItem × List (ℕ × Product)) :=
  match items with
  | [] => .ok (subtotal, acc, pmap)
  | item :: rest =>
    match lookupProd pmap item.product with
    | none => .error (.productNotFound (some item.product))
    | some p =>
      if p.stockQuantity < (item.quantity : ℤ) then
        .error (.insufficientStock item.product p.stockQuantity item.quantity)
      else
        processItems
          (writeProd pmap item.product
            { p with stockQuantity := p.stockQuantity - (item.quantity : ℤ) })
          rest
          (subtotal + p.price * (item.quantity : ℚ))
          (acc ++ [{ product := item.product, quantity := item.quantity,
                     price := p.price,
                     subtotal := p.price * (item.quantity : ℚ) }])

/-- The fixed VAT rate of `createSale` (`const vatRate = 0.12`). -/
def vatRate : ℚ := 12 / 100

/-- `createSale` (`POST /api/sales`).  `discountReq` is the request body's
optional `discount` field: the route validates it, but the controller never
reads it (`const discount = 0`), which the embedding mirrors by ignoring the
argument.  Steps, in the controller's order: `Product.find {$in}` plus the
count check, the validation/pricing loop, the bulk `product.save()`, VAT and
total, `generateSaleNumber`, and `Sale.create` (with `isVoid = false`,
`discount = 0` and `createdAt = now`). -/
def createSale (off : ℕ) (db : DB) (items : List CartItem)
    (discountReq : Option ℚ) (now : ℕ) : Except CreateErr (SaleDoc × DB) :=
  let productIds := items.map (fun i => i.product)
  let products := db.products.filter (fun q => productIds.contains q.1)
  if products.length ≠ items.length then
    .error (.productNotFound
      (productIds.find? (fun id => !((products.map (fun q => q.1)).contains id))))
  else
    match processItems products items 0 [] with
    | .error e => .error e
    | .ok (subtotal, saleItems, updated) =>
      let savedProducts := db.products.map (fun q =>
        match lookupProd updated q.1 with
        | some p => (q.1, p)
        | none => q)
      let tax := subtotal * vatRate
      let total := subtotal + tax
      let saleNumber := generateSaleNumber off now db.sales
      let sale : SaleDoc :=
        { id := db.sales.length, saleNumber := saleNumber, items := saleItems,
          subtotal := subtotal, tax := tax, discount := 0, total := total,
          isVoid := false, voidedAt := none, createdAt := now }
      .ok (sale, { products := savedProducts, sales := db.sales ++ [sale] })

/-! ## `voidSale` (`controllers/sales.controller.js`) -/

/-- The outcomes of `voidSale` other than success: the 404 when the sale id
is unknown, the 400 "Sale is already voided", the `TypeError` thrown while
building `productIds` (the sale is loaded with `populate('items.product')`,
which sets a reference to an *absent* product to `null`, so
`item.product._id` dereferences `null`; the `catch` forwards it via
`next(error)` as a generic server error), and the 404 "One or more products
not found" raised when `Product.find {$in}` returns fewer documents than the
sale has line items — which, with every reference non-null, can only happen
when the sale's line items repeat a product. -/
inductive VoidErr
  | saleNotFound
  | alreadyVoid
  | typeError
  | productsNotFound
  deriving DecidableEq

/-- The stock-restoration loop of `voidSale`: for each line item whose
product is in the map, `product.stockQuantity += item.quantity`. -/
def restoreItems (pmap : List (ℕ × Product)) : List SaleItem → List (ℕ × Product)
  | [] => pmap
  | item :: rest =>
    match lookupProd pmap item.product with
    | none => restoreItems pmap rest
    | some p =>
      restoreItems
        (writeProd pmap item.product
          { p with stockQuantity := p.stockQuantity + (item.quantity : ℤ) })
        rest

/-- `voidSale` (`PATCH /api/sales/:id/void`): loads the sale (with its item
products populated), rejects an unknown id or an already-void sale, throws a
`TypeError` while building `productIds` when any populated reference is
`null` (i.e. some referenced product is absent from the store), re-loads the
referenced products with `Product.find {$in}` (rejecting the request when
fewer documents than line items come back — with every product present that
means repeated line references), restores every line item's quantity to its
product's stock, persists the products, and marks the sale void. -/
def voidSale (db : DB) (saleId : ℕ) (now : ℕ) : Except VoidErr (SaleDoc × DB) :=
  match db.sales.find? (fun s => s.id == saleId) with
  | none => .error .saleNotFound
  | some sale =>
    if sale.isVoid then .error .alreadyVoid
    else if sale.items.any (fun i => (lookupProd db.products i.product).isNone) then
      .error .typeError
    else
      let productIds := sale.items.map (fun i => i.product)
      let products := db.products.filter (fun q => productIds.contains q.1)
      if products.length ≠ productIds.length then .error .productsNotFound
      else
        let updated := restoreItems products sale.items
        let savedProducts := db.products.map (fun q =>
          match lookupProd updated q.1 with
          | some p => (q.1, p)
          | none => q)
        let voided : SaleDoc := { sale with isVoid := true, voidedAt := some now }
        .ok (voided,
          { products := savedProducts,
            sales := db.sales.map (fun s => if s.id == saleId then
              { s with isVoid := true, voidedAt := some now } else s) })

/-! ## Sequential runs of the two mutating endpoints -/

/-- One call of a mutating endpoint, with its request payload and arrival
time. -/
inductive Op
  | create (items : List CartItem) (discountReq : Option ℚ) (t : ℕ)
  | void (saleId : ℕ) (t : ℕ)
  deriving DecidableEq

/-- The state after serving one request: a failed request leaves the
persistent state untouched (both controllers return their error before any
`save()`/`create()`), a successful one commits the new state. -/
def applyOp (off : ℕ) (db : DB) : Op → DB
  | .create items d t =>
    match createSale off db items d t with
    | .ok r => r.2
    | .error _ => db
  | .void sid t =>
    match voidSale db sid t with
    | .ok r => r.2
    | .error _ => db

/-- Serve a sequence of requests in order. -/
def runOps (off : ℕ) (db : DB) (ops : List Op) : DB :=
  ops.foldl (applyOp off) db

/-- Every product document in the store has non-negative stock. -/
def stockNonneg (db : DB) : Prop :=
  ∀ q ∈ db.products, 0 ≤ q.2.stockQuantity

instance (db : DB) : Decidable (stockNonneg db) := by
  unfold stockNonneg; infer_instance

/-! ## `getTopProducts` (`controllers/report.controller.js`) -/

/-- One group of the `$group` stage of `getTopProducts`, keyed by
`items.product`, later joined with the product document. -/
structure TopGroup where
  product : ℕ
  totalQuantity : ℕ
  totalRevenue : ℚ
  saleCount : ℕ
  deriving DecidableEq

/-- One row of the `getTopProducts` response (after the `$lookup`/`$unwind`
against `products` and the `$project`). -/
structure TopRow where
  productId : ℕ
  productName : String
  totalQuantity : ℕ
  totalRevenue : ℚ
  saleCount : ℕ
  deriving DecidableEq

/-- Fold one unwound line item into the `$group` accumulator: an existing
group for the product gets `$sum`-med, otherwise a new group is appended.
(The order in which Mongo emits groups is unspecified; the embedding uses
first-occurrence order.) -/
def addItem (acc : List TopGroup) (it : SaleItem) : List TopGroup :=
  if acc.any (fun g => g.product == it.product) then
    acc.map (fun g =>
      if g.product == it.product then
        { g with totalQuantity := g.totalQuantity + it.quantity,
                 totalRevenue := g.totalRevenue + it.subtotal,
                 saleCount := g.saleCount + 1 }
      else g)
  else
    acc ++ [{ product := it.product, totalQuantity := it.quantity,
              totalRevenue := it.subtotal, saleCount := 1 }]

/-- The `$match` filter of `getTopProducts`: non-void, and inside the
`[start, end]` window when both bounds were supplied. -/
def topMatch (window : Option (ℕ × ℕ)) (s : SaleDoc) : Bool :=
  !s.isVoid &&
    (match window with
     | none => true
     | some (a, b) => decide (a ≤ s.createdAt) && decide (s.createdAt ≤ b))

/-- The `$sort {totalRevenue: -1}` key of `getTopProducts`: `a` may come
before `b` exactly when `a`'s total revenue is at least `b`'s — revenue
descending and nothing else. -/
def revDesc (a b : TopRow) : Prop := b.totalRevenue ≤ a.totalRevenue

instance : DecidableRel revDesc := fun a b =>
  inferInstanceAs (Decidable (b.totalRevenue ≤ a.totalRevenue))

instance : IsTotal TopRow revDesc :=
  ⟨fun a b => le_total b.totalRevenue a.totalRevenue⟩

instance : IsTrans TopRow revDesc :=
  ⟨fun _ _ _ hab hbc => le_trans hbc hab⟩

/-- `getTopProducts`: `$match` (non-void sales in the window) → `$unwind` of
`items` → `$group` by product with `$sum`s → `$lookup`+`$unwind` against the
product collection (groups whose product document is missing are dropped) →
`$sort {totalRevenue: -1}` — by revenue only, no further sort key — →
`$limit`.  Mongo does not promise any particular order among revenue ties;
the embedding fixes one permitted behaviour, a stable sort over the
first-occurrence group order. -/
def topProducts (db : DB) (window : Option (ℕ × ℕ)) (limit : ℕ) : List TopRow :=
  let sales := db.sales.filter (topMatch window)
  let unwound := sales.flatMap (fun s => s.items)
  let groups := unwound.foldl addItem []
  let rows := groups.filterMap (fun g =>
    (lookupProd db.products g.product).map (fun p =>
      { productId := g.product, productName := p.name,
        totalQuantity := g.totalQuantity, totalRevenue := g.totalRevenue,
        saleCount := g.saleCount }))
  (List.insertionSort revDesc rows).take limit

/-! ## Concrete fixtures used by counterexamples and witnesses -/

/-- A store with one healthy product (id 1, price 1, stock 100). -/
def dbOne : DB :=
  { products := [(1, { name := "P", price := 1, stockQuantity := 100, isActive := true })],
    sales := [] }

/-- A store whose single product has price 9.99 (a price whose VAT-inclusive
total has four decimal places). -/
def dbCent : DB :=
  { products := [(1, { name := "P", price := 999 / 100, stockQuantity := 10, isActive := true })],
    sales := [] }

/-- A store whose single product is *inactive* but has plenty of stock. -/
def dbInactive : DB :=
  { products := [(1, { name := "P", price := 2, stockQuantity := 10, isActive := false })],
    sales := [] }

/-- The spec's Scenario C store: product A (id 1) with stock 5, product B
(id 2) with stock 0. -/
def dbScenC : DB :=
  { products := [(1, { name := "A", price := 1, stockQuantity := 5, isActive := true }),
                 (2, { name := "B", price := 1, stockQuantity := 0, isActive := true })],
    sales := [] }

/-- 2024-01-02T02:00:00Z in epoch milliseconds. -/
def t0102at02 : ℕ := 19724 * 86400000 + 7200000

/-- 2024-01-02T20:00:00Z in epoch milliseconds. -/
def t0102at20 : ℕ := 19724 * 86400000 + 72000000

/-- A UTC+5 server timezone (5 h in milliseconds ahead of UTC). -/
def offP5 : ℕ := 18000000

/-- A store with two products and two non-void sales whose line items have
equal revenue 10 but different quantities: product 2 sold first (quantity 1),
product 1 sold second (quantity 5). -/
def dbTies : DB :=
  { products := [(1, { name := "A", price := 2, stockQuantity := 0, isActive := true }),
                 (2, { name := "B", price := 10, stockQuantity := 0, isActive := true })],
    sales :=
      [{ id := 0, saleNumber := "s0",
         items := [{ product := 2, quantity := 1, price := 10, subtotal := 10 }],
         subtotal := 10, tax := 6 / 5, discount := 0, total := 56 / 5,
         isVoid := false, voidedAt := none, createdAt := 0 },
       { id := 1, saleNumber := "s1",
         items := [{ product := 1, quantity := 5, price := 2, subtotal := 10 }],
         subtotal := 10, tax := 6 / 5, discount := 0, total := 56 / 5,
         isVoid := false, voidedAt := none, createdAt := 0 }] }

/-- Rounding to two decimal places, as in the spec's
`total == round(subtotal + subtotal×0.12 − discount, 2)` (spec-side
definition; the controller itself never rounds). -/
def roundTo2 (q : ℚ) : ℚ := ((round (q * 100) : ℤ) : ℚ) / 100

/-- The spec's claimed invariant on persisted totals, following its words:
`total == round(subtotal + subtotal×0.12 − discount, 2)`. -/
def totalRoundedClaim (s : SaleDoc) : Prop :=
  s.total = roundTo2 (s.subtotal + s.subtotal * (12 / 100) - s.discount)

instance (s : SaleDoc) : Decidable (totalRoundedClaim s) :=
  inferInstanceAs (Decidable (s.total = roundTo2 (s.subtotal + s.subtotal * (12 / 100) - s.discount)))

/-- The spec's claimed output ordering for `topProducts`, following its
words: revenue descending, ties broken by quantity descending, then by
product identity ascending. -/
def specTopOrder (a b : TopRow) : Prop :=
  b.totalRevenue < a.totalRevenue ∨
    (a.totalRevenue = b.totalRevenue ∧
      (b.totalQuantity < a.totalQuantity ∨
        (a.totalQuantity = b.totalQuantity ∧ a.productId < b.productId)))

instance (a b : TopRow) : Decidable (specTopOrder a b) :=
  inferInstanceAs (Decidable (_ ∨ (_ ∧ (_ ∨ (_ ∧ _)))))

/-- The total quantity recorded for product `pid` across a group list (the
unique group's value when group keys are duplicate-free). -/
def grpQty (gs : List TopGroup) (pid : ℕ) : ℕ :=
  ((gs.filter (fun g => g.product == pid)).map (fun g => g.totalQuantity)).sum

/-- The total revenue recorded for product `pid` across a group list. -/
def grpRev (gs : List TopGroup) (pid : ℕ) : ℚ :=
  ((gs.filter (fun g => g.product == pid)).map (fun g => g.totalRevenue)).sum

/-- The occurrence count recorded for product `pid` across a group list. -/
def grpCnt (gs : List TopGroup) (pid : ℕ) : ℕ :=
  ((gs.filter (fun g => g.product == pid)).map (fun g => g.saleCount)).sum

/-- Specification-side aggregate: the summed quantity of product `pid` over
a list of (unwound) line items. -/
def itemsQtyFor (its : List SaleItem) (pid : ℕ) : ℕ :=
  ((its.filter (fun it => it.product == pid)).map (fun it => it.quantity)).sum

/-- Specification-side aggregate: the summed line subtotal of product `pid`
over a list of (unwound) line items. -/
def itemsRevFor (its : List SaleItem) (pid : ℕ) : ℚ :=
  ((its.filter (fun it => it.product == pid)).map (fun it => it.subtotal)).sum

/-- Specification-side aggregate: the number of (unwound) line items
referencing product `pid`. -/
def itemsCntFor (its : List SaleItem) (pid : ℕ) : ℕ :=
  (its.filter (fun it => it.product == pid)).length

/-- A persisted, not-yet-void sale of 3 units of product 1, and a store
holding it (product 1 currently has stock 7). -/
def saleV : SaleDoc :=
  { id := 0, saleNumber := "SALE-19700101-0001",
    items := [{ product := 1, quantity := 3, price := 1, subtotal := 3 }],
    subtotal := 3, tax := 0, discount := 0, total := 3,
    isVoid := false, voidedAt := none, createdAt := 0 }

/-- Store for the `voidSale` witnesses. -/
def dbVoid : DB :=
  { products := [(1, { name := "P", price := 1, stockQuantity := 7, isActive := true })],
    sales := [saleV] }

/-- A persisted, not-yet-void sale whose only line item references product 2,
which is absent from the store. -/
def saleM : SaleDoc :=
  { id := 0, saleNumber := "SALE-19700101-0001",
    items := [{ product := 2, quantity := 1, price := 1, subtotal := 1 }],
    subtotal := 1, tax := 0, discount := 0, total := 1,
    isVoid := false, voidedAt := none, createdAt := 0 }

/-- Store for the C10 witness: holds `saleM` but not product 2. -/
def dbMiss : DB :=
  { products := [(1, { name := "P", price := 1, stockQuantity := 7, isActive := true })],
    sales := [saleM] }

/-! ## Helper lemmas about the association-list store -/

theorem lookupProd_mem {ps : List (ℕ × Product)} {id : ℕ} {p : Product}
    (h : lookupProd ps id = some p) : (id, p) ∈ ps := by
  unfold lookupProd at h
  cases hf : ps.find? (fun q => q.1 == id) with
  | none => rw [hf] at h; simp at h
  | some q =>
    rw [hf] at h
    have hq := List.find?_some hf
    have hm := List.mem_of_find?_eq_some hf
    simp at h hq
    rwa [← h, ← hq, Prod.mk.eta]

theorem lookupProd_eq_none {ps : List (ℕ × Product)} {id : ℕ}
    (h : lookupProd ps id = none) : ∀ q ∈ ps, q.1 ≠ id := by
  unfold lookupProd at h
  cases hf : ps.find? (fun q => q.1 == id) with
  | none =>
    intro q hq
    have := List.find?_eq_none.mp hf q hq
    simpa using this
  | some q => rw [hf] at h; simp at h

theorem lookupProd_isSome_of_mem {ps : List (ℕ × Product)} {q : ℕ × Product}
    (h : q ∈ ps) : (lookupProd ps q.1).isSome := by
  cases hf : lookupProd ps q.1 with
  | none => exact absurd rfl (lookupProd_eq_none hf q h)
  | some p => rfl

theorem lookupProd_writeProd_self {ps : List (ℕ × Product)} {id : ℕ}
    (h : (lookupProd ps id).isSome) (p' : Product) :
    lookupProd (writeProd ps id p') id = some p' := by
  induction ps with
  | nil => simp [lookupProd] at h
  | cons q rest ih =>
    by_cases hq : q.1 = id
    · simp [lookupProd, writeProd, List.find?, hq]
    · have hq' : (q.1 == id) = false := by simp [hq]
      have h' : (lookupProd rest id).isSome := by
        simpa [lookupProd, List.find?, hq'] using h
      simpa [lookupProd, writeProd, List.find?, hq'] using ih h'

theorem lookupProd_writeProd_ne {ps : List (ℕ × Product)} {id id' : ℕ} (p : Product)
    (h : id' ≠ id) : lookupProd (writeProd ps id p) id' = lookupProd ps id' := by
  induction ps with
  | nil => rfl
  | cons q rest ih =>
    unfold writeProd at ih ⊢
    simp only [List.map_cons]
    by_cases hq : q.1 = id
    · rw [if_pos (by simpa using hq)]
      unfold lookupProd
      rw [List.find?_cons_of_neg _ (by simpa using Ne.symm h),
        List.find?_cons_of_neg _ (by rw [hq]; simpa using Ne.symm h)]
      exact ih
    · rw [if_neg (by simpa using hq)]
      by_cases hq' : q.1 = id'
      · unfold lookupProd
        rw [List.find?_cons_of_pos _ (by simpa using hq'),
          List.find?_cons_of_pos _ (by simpa using hq')]
      · unfold lookupProd
        rw [List.find?_cons_of_neg _ (by simpa using hq'),
          List.find?_cons_of_neg _ (by simpa using hq')]
        exact ih

theorem lookupProd_filter {ps : List (ℕ × Product)} {id : ℕ}
    (pred : ℕ × Product → Bool) (hpred : ∀ q : ℕ × Product, q.1 = id → pred q = true) :
    lookupProd (ps.filter pred) id = lookupProd ps id := by
  induction ps with
  | nil => simp
  | cons q rest ih =>
    rw [List.filter_cons]
    by_cases hq : q.1 = id
    · rw [if_pos (by simp [hpred q hq])]
      unfold lookupProd
      rw [List.find?_cons_of_pos _ (by simpa using hq),
        List.find?_cons_of_pos _ (by simpa using hq)]
    · cases hp : pred q
      · rw [if_neg (by simp [hp])]
        unfold lookupProd at ih ⊢
        rw [List.find?_cons_of_neg _ (by simpa using hq)]
        exact ih
      · rw [if_pos (by simp)]
        unfold lookupProd at ih ⊢
        rw [List.find?_cons_of_neg _ (by simpa using hq),
          List.find?_cons_of_neg _ (by simpa using hq)]
        exact ih

/-! ## Lemmas about the `createSale` validation/pricing loop -/

theorem processItems_ok_shape (items : List CartItem) :
    ∀ (pmap : List (ℕ × Product)) (sub : ℚ) (acc : List SaleItem) (s : ℚ)
      (its : List SaleItem) (upd : List (ℕ × Product)),
      processItems pmap items sub acc = .ok (s, its, upd) →
      ∃ newItems, its = acc ++ newItems ∧
        s = sub + (newItems.map (fun it => it.subtotal)).sum ∧
        ∀ it ∈ newItems, it.subtotal = it.price * (it.quantity : ℚ) := by
  induction items with
  | nil =>
    intro pmap sub acc s its upd h
    simp only [processItems, Except.ok.injEq, Prod.mk.injEq] at h
    exact ⟨[], by simp [h.2.1.symm], by simp [h.1.symm], by simp⟩
  | cons item rest ih =>
    intro pmap sub acc s its upd h
    cases hl : lookupProd pmap item.product with
    | none => simp [processItems, hl] at h
    | some p =>
      simp only [processItems, hl] at h
      by_cases hs : p.stockQuantity < (item.quantity : ℤ)
      · rw [if_pos hs] at h; exact absurd h (by simp)
      · rw [if_neg hs] at h
        obtain ⟨new', h1, h2, h3⟩ := ih _ _ _ _ _ _ h
        refine ⟨{ product := item.product, quantity := item.quantity, price := p.price,
                  subtotal := p.price * (item.quantity : ℚ) } :: new', ?_, ?_, ?_⟩
        · rw [h1]; simp
        · rw [h2]; simp only [List.map_cons, List.sum_cons]; ring
        · intro it hit
          rcases List.mem_cons.mp hit with heq | hmem
          · subst heq; rfl
          · exact h3 it hmem

theorem processItems_error_cases (items : List CartItem) :
    ∀ (pmap : List (ℕ × Product)) (sub : ℚ) (acc : List SaleItem) (e : CreateErr),
      processItems pmap items sub acc = .error e →
      (∃ it ∈ items, lookupProd pmap it.product = none ∧ e = .productNotFound (some it.product)) ∨
      (∃ id av rq, e = .insufficientStock id av rq ∧ av < (rq : ℤ)) := by
  induction items with
  | nil =>
    intro pmap sub acc e h
    simp [processItems] at h
  | cons item rest ih =>
    intro pmap sub acc e h
    cases hl : lookupProd pmap item.product with
    | none =>
      simp only [processItems, hl, Except.error.injEq] at h
      exact Or.inl ⟨item, List.mem_cons_self item rest, hl, h.symm⟩
    | some p =>
      simp only [processItems, hl] at h
      by_cases hs : p.stockQuantity < (item.quantity : ℤ)
      · rw [if_pos hs] at h
        simp only [Except.error.injEq] at h
        exact Or.inr ⟨item.product, p.stockQuantity, item.quantity, h.symm, hs⟩
      · rw [if_neg hs] at h
        rcases ih _ _ _ _ h with ⟨it, hmem, hlk, he⟩ | hr
        · -- the later lookup is in the written map; pull it back when the id differs,
          -- and derive a contradiction when it is the written id (that lookup succeeds)
          by_cases hid : it.product = item.product
          · rw [hid] at hlk
            rw [lookupProd_writeProd_self (by rw [hl]; rfl) _] at hlk
            exact absurd hlk (by simp)
          · rw [lookupProd_writeProd_ne _ hid] at hlk
            exact Or.inl ⟨it, List.mem_cons_of_mem item hmem, hlk, he⟩
        · exact Or.inr hr

/-- Stock values present in the in-memory map stay non-negative through the
validation loop: each decrement is guarded by the stock check. -/
theorem processItems_nonneg (items : List CartItem) :
    ∀ (pmap : List (ℕ × Product)) (sub : ℚ) (acc : List SaleItem) (s : ℚ)
      (its : List SaleItem) (upd : List (ℕ × Product)),
      (∀ q ∈ pmap, 0 ≤ q.2.stockQuantity) →
      processItems pmap items sub acc = .ok (s, its, upd) →
      ∀ q ∈ upd, 0 ≤ q.2.stockQuantity := by
  induction items with
  | nil =>
    intro pmap sub acc s its upd hn h
    simp only [processItems, Except.ok.injEq, Prod.mk.injEq] at h
    rw [← h.2.2]
    exact hn
  | cons item rest ih =>
    intro pmap sub acc s its upd hn h
    cases hl : lookupProd pmap item.product with
    | none => simp [processItems, hl] at h
    | some p =>
      simp only [processItems, hl] at h
      by_cases hs : p.stockQuantity < (item.quantity : ℤ)
      · rw [if_pos hs] at h; exact absurd h (by simp)
      · rw [if_neg hs] at h
        refine ih _ _ _ _ _ _ ?_ h
        intro q hq
        unfold writeProd at hq
        rcases List.mem_map.mp hq with ⟨q0, hq0, hq0e⟩
        by_cases hc : q0.1 == item.product
        · rw [if_pos hc] at hq0e
          rw [← hq0e]
          simp only []
          omega
        · rw [if_neg (by simpa using hc)] at hq0e
          rw [← hq0e]
          exact hn q0 hq0

/-- Ids not occurring in the remaining cart lines keep their map entry
through the loop. -/
theorem processItems_lookup_frozen (items : List CartItem) :
    ∀ (pmap : List (ℕ × Product)) (sub : ℚ) (acc : List SaleItem) (s : ℚ)
      (its : List SaleItem) (upd : List (ℕ × Product)) (id : ℕ),
      id ∉ items.map (fun i => i.product) →
      processItems pmap items sub acc = .ok (s, its, upd) →
      lookupProd upd id = lookupProd pmap id := by
  induction items with
  | nil =>
    intro pmap sub acc s its upd id _ h
    simp only [processItems, Except.ok.injEq, Prod.mk.injEq] at h
    rw [← h.2.2]
  | cons item rest ih =>
    intro pmap sub acc s its upd id hid h
    simp only [List.map_cons, List.mem_cons, not_or] at hid
    cases hl : lookupProd pmap item.product with
    | none => simp [processItems, hl] at h
    | some p =>
      simp only [processItems, hl] at h
      by_cases hs : p.stockQuantity < (item.quantity : ℤ)
      · rw [if_pos hs] at h; exact absurd h (by simp)
      · rw [if_neg hs] at h
        rw [ih _ _ _ _ _ _ _ (by simpa using hid.2) h]
        exact lookupProd_writeProd_ne _ hid.1

/-- With pairwise-distinct cart lines, the loop decrements each referenced
product's stock by exactly the requested quantity. -/
theorem processItems_stock (items : List CartItem) :
    ∀ (pmap : List (ℕ × Product)) (sub : ℚ) (acc : List SaleItem) (s : ℚ)
      (its : List SaleItem) (upd : List (ℕ × Product)),
      (items.map (fun i => i.product)).Nodup →
      processItems pmap items sub acc = .ok (s, its, upd) →
      ∀ it ∈ items, ∃ p, lookupProd pmap it.product = some p ∧
        lookupProd upd it.product =
          some { p with stockQuantity := p.stockQuantity - (it.quantity : ℤ) } := by
  induction items with
  | nil => intro pmap sub acc s its upd _ _ it hit; exact absurd hit (by simp)
  | cons item rest ih =>
    intro pmap sub acc s its upd hnd h it hit
    have hnd' := hnd
    simp only [List.map_cons, List.nodup_cons] at hnd'
    cases hl : lookupProd pmap item.product with
    | none => simp [processItems, hl] at h
    | some p =>
      simp only [processItems, hl] at h
      by_cases hs : p.stockQuantity < (item.quantity : ℤ)
      · rw [if_pos hs] at h; exact absurd h (by simp)
      · rw [if_neg hs] at h
        rcases List.mem_cons.mp hit with heq | hmem
        · subst heq
          refine ⟨p, hl, ?_⟩
          rw [processItems_lookup_frozen rest _ _ _ _ _ _ _ hnd'.1 h]
          exact lookupProd_writeProd_self (by rw [hl]; rfl) _
        · obtain ⟨p', hp1, hp2⟩ := ih _ _ _ _ _ _ hnd'.2 h it hmem
          have hne : it.product ≠ item.product := by
            intro e
            exact hnd'.1 (e ▸ List.mem_map_of_mem (fun i => i.product) hmem)
          rw [lookupProd_writeProd_ne _ hne] at hp1
          exact ⟨p', hp1, hp2⟩

/-- With pairwise-distinct cart lines that all resolve and all have enough
stock, the loop succeeds. -/
theorem processItems_isOk (items : List CartItem) :
    ∀ (pmap : List (ℕ × Product)) (sub : ℚ) (acc : List SaleItem),
      (items.map (fun i => i.product)).Nodup →
      (∀ it ∈ items, ∃ p, lookupProd pmap it.product = some p ∧
        (it.quantity : ℤ) ≤ p.stockQuantity) →
      ∃ s its upd, processItems pmap items sub acc = .ok (s, its, upd) := by
  induction items with
  | nil => intro pmap sub acc _ _; exact ⟨sub, acc, pmap, rfl⟩
  | cons item rest ih =>
    intro pmap sub acc hnd hok
    have hnd' := hnd
    simp only [List.map_cons, List.nodup_cons] at hnd'
    obtain ⟨p, hl, hq⟩ := hok item (List.mem_cons_self item rest)
    have hs : ¬ p.stockQuantity < (item.quantity : ℤ) := by omega
    refine (ih _ _ _ hnd'.2 ?_).imp (fun s hs' => hs'.imp (fun its hits => hits.imp
      (fun upd hupd => by simp only [processItems, hl, if_neg hs]; exact hupd)))
    intro it hmem
    obtain ⟨p', hp1, hp2⟩ := hok it (List.mem_cons_of_mem item hmem)
    have hne : it.product ≠ item.product := by
      intro e
      exact hnd'.1 (e ▸ List.mem_map_of_mem (fun i => i.product) hmem)
    exact ⟨p', by rw [lookupProd_writeProd_ne _ hne]; exact hp1, hp2⟩

theorem lookupProd_cons (q : ℕ × Product) (rest : List (ℕ × Product)) (id : ℕ) :
    lookupProd (q :: rest) id = if q.1 = id then some q.2 else lookupProd rest id := by
  by_cases hq : q.1 = id
  · unfold lookupProd
    rw [List.find?_cons_of_pos _ (by simpa using hq), if_pos hq]
    rfl
  · unfold lookupProd
    rw [List.find?_cons_of_neg _ (by simpa using hq), if_neg hq]

/-- Looking a key up after the bulk `product.save()`: the persisted document
is the in-memory one when the key was in the written map, the unchanged one
otherwise. -/
theorem lookupProd_saved (ps upd : List (ℕ × Product)) (id : ℕ) :
    lookupProd (ps.map (fun q =>
      match lookupProd upd q.1 with
      | some p => (q.1, p)
      | none => q)) id =
    match lookupProd ps id with
    | some p0 =>
      match lookupProd upd id with
      | some p => some p
      | none => some p0
    | none => none := by
  induction ps with
  | nil => rfl
  | cons q rest ih =>
    rw [List.map_cons, lookupProd_cons, lookupProd_cons]
    have hg1 : (match lookupProd upd q.1 with
        | some p => (q.1, p)
        | none => q).1 = q.1 := by
      cases lookupProd upd q.1 <;> rfl
    rw [hg1]
    by_cases hq : q.1 = id
    · subst hq
      rw [if_pos rfl, if_pos rfl]
      cases hu : lookupProd upd q.1 <;> simp [hu]
    · rw [if_neg hq, if_neg hq]
      exact ih

/-! ## Inversion of `createSale` -/

/-- Success inversion for `createSale`: the count check passed, the loop
succeeded, and the persisted sale and state have exactly the shape the
controller builds. -/
theorem createSale_ok_inv (off : ℕ) (db : DB) (items : List CartItem) (d : Option ℚ)
    (now : ℕ) (sale : SaleDoc) (db' : DB)
    (h : createSale off db items d now = .ok (sale, db')) :
    ∃ s its upd,
      (db.products.filter (fun q =>
        (items.map (fun i => i.product)).contains q.1)).length = items.length ∧
      processItems (db.products.filter (fun q =>
        (items.map (fun i => i.product)).contains q.1)) items 0 [] = .ok (s, its, upd) ∧
      sale = { id := db.sales.length,
               saleNumber := generateSaleNumber off now db.sales,
               items := its, subtotal := s, tax := s * vatRate, discount := 0,
               total := s + s * vatRate, isVoid := false, voidedAt := none,
               createdAt := now } ∧
      db' = { products := db.products.map (fun q =>
                match lookupProd upd q.1 with
                | some p => (q.1, p)
                | none => q),
              sales := db.sales ++ [sale] } := by
  unfold createSale at h
  by_cases hl : (db.products.filter (fun q =>
      (items.map (fun i => i.product)).contains q.1)).length = items.length
  · rw [if_neg (by simpa using hl)] at h
    cases hp : processItems (db.products.filter (fun q =>
        (items.map (fun i => i.product)).contains q.1)) items 0 [] with
    | error e => rw [hp] at h; exact absurd h (by simp)
    | ok r =>
      obtain ⟨s, its, upd⟩ := r
      rw [hp] at h
      simp only [Except.ok.injEq, Prod.mk.injEq] at h
      exact ⟨s, its, upd, hl, rfl, h.1.symm, by rw [← h.2, ← h.1]⟩
  · rw [if_pos (by simpa using hl)] at h
    exact absurd h (by simp)

/-- Error inversion: a failed `createSale` is one of the three rejection
paths, none of which reaches a `save()` or `Sale.create`. -/
theorem createSale_error_inv (off : ℕ) (db : DB) (items : List CartItem) (d : Option ℚ)
    (now : ℕ) (e : CreateErr) (h : createSale off db items d now = .error e) :
    (db.products.filter (fun q =>
        (items.map (fun i => i.product)).contains q.1)).length ≠ items.length ∨
    processItems (db.products.filter (fun q =>
        (items.map (fun i => i.product)).contains q.1)) items 0 [] = .error e := by
  unfold createSale at h
  by_cases hl : (db.products.filter (fun q =>
      (items.map (fun i => i.product)).contains q.1)).length = items.length
  · rw [if_neg (by simpa using hl)] at h
    cases hp : processItems (db.products.filter (fun q =>
        (items.map (fun i => i.product)).contains q.1)) items 0 [] with
    | error e' =>
      rw [hp] at h
      simp only [Except.error.injEq] at h
      exact Or.inr (by rw [h])
    | ok r =>
      obtain ⟨s, its, upd⟩ := r
      rw [hp] at h
      exact absurd h (by simp)
  · exact Or.inl hl

/-! ## Lemmas about the `voidSale` restoration loop -/

theorem restoreItems_lookup_frozen (items : List SaleItem) :
    ∀ (pmap : List (ℕ × Product)) (id : ℕ),
      id ∉ items.map (fun i => i.product) →
      lookupProd (restoreItems pmap items) id = lookupProd pmap id := by
  induction items with
  | nil => intro pmap id _; rfl
  | cons item rest ih =>
    intro pmap id hid
    simp only [List.map_cons, List.mem_cons, not_or] at hid
    cases hl : lookupProd pmap item.product with
    | none =>
      simp only [restoreItems, hl]
      exact ih _ _ (by simpa using hid.2)
    | some p =>
      simp only [restoreItems, hl]
      rw [ih _ _ (by simpa using hid.2)]
      exact lookupProd_writeProd_ne _ hid.1

theorem restoreItems_stock (items : List SaleItem) :
    ∀ (pmap : List (ℕ × Product)),
      (items.map (fun i => i.product)).Nodup →
      (∀ it ∈ items, (lookupProd pmap it.product).isSome) →
      ∀ it ∈ items, ∃ p, lookupProd pmap it.product = some p ∧
        lookupProd (restoreItems pmap items) it.product =
          some { p with stockQuantity := p.stockQuantity + (it.quantity : ℤ) } := by
  induction items with
  | nil => intro pmap _ _ it hit; exact absurd hit (by simp)
  | cons item rest ih =>
    intro pmap hnd hpres it hit
    have hnd' := hnd
    simp only [List.map_cons, List.nodup_cons] at hnd'
    cases hl : lookupProd pmap item.product with
    | none =>
      have := hpres item (List.mem_cons_self item rest)
      rw [hl] at this
      exact absurd this (by simp)
    | some p =>
      simp only [restoreItems, hl]
      rcases List.mem_cons.mp hit with heq | hmem
      · subst heq
        refine ⟨p, hl, ?_⟩
        rw [restoreItems_lookup_frozen rest _ _ hnd'.1]
        exact lookupProd_writeProd_self (by rw [hl]; rfl) _
      · have hne : it.product ≠ item.product := by
          intro e
          exact hnd'.1 (e ▸ List.mem_map_of_mem (fun i => i.product) hmem)
        have hpres' : ∀ it' ∈ rest, (lookupProd (writeProd pmap item.product
            { p with stockQuantity := p.stockQuantity + (item.quantity : ℤ) })
              it'.product).isSome := by
          intro it' hit'
          by_cases he : it'.product = item.product
          · rw [he, lookupProd_writeProd_self (by rw [hl]; rfl) _]
            rfl
          · rw [lookupProd_writeProd_ne _ he]
            exact hpres it' (List.mem_cons_of_mem item hit')
        obtain ⟨p', hp1, hp2⟩ := ih _ (by simpa using hnd'.2) hpres' it hmem
        rw [lookupProd_writeProd_ne _ hne] at hp1
        exact ⟨p', hp1, hp2⟩

theorem restoreItems_nonneg (items : List SaleItem) :
    ∀ (pmap : List (ℕ × Product)),
      (∀ q ∈ pmap, 0 ≤ q.2.stockQuantity) →
      ∀ q ∈ restoreItems pmap items, 0 ≤ q.2.stockQuantity := by
  induction items with
  | nil => intro pmap hn; exact hn
  | cons item rest ih =>
    intro pmap hn
    cases hl : lookupProd pmap item.product with
    | none =>
      simp only [restoreItems, hl]
      exact ih _ hn
    | some p =>
      simp only [restoreItems, hl]
      refine ih _ ?_
      intro q hq
      unfold writeProd at hq
      rcases List.mem_map.mp hq with ⟨q0, hq0, hq0e⟩
      by_cases hc : q0.1 == item.product
      · rw [if_pos hc] at hq0e
        rw [← hq0e]
        have h0 : 0 ≤ p.stockQuantity := by
          have := hn _ (lookupProd_mem hl)
          simpa using this
        simp only []
        omega
      · rw [if_neg (by simpa using hc)] at hq0e
        rw [← hq0e]
        exact hn q0 hq0

/-! ## Inversion of `voidSale` -/

/-- Success inversion for `voidSale`. -/
theorem voidSale_ok_inv (db : DB) (saleId : ℕ) (now : ℕ) (sale' : SaleDoc) (db' : DB)
    (h : voidSale db saleId now = .ok (sale', db')) :
    ∃ sale, db.sales.find? (fun s => s.id == saleId) = some sale ∧
      sale.isVoid = false ∧
      (sale.items.any (fun i => (lookupProd db.products i.product).isNone)) = false ∧
      (db.products.filter (fun q =>
        (sale.items.map (fun i => i.product)).contains q.1)).length
        = (sale.items.map (fun i => i.product)).length ∧
      sale' = { sale with isVoid := true, voidedAt := some now } ∧
      db' = { products := db.products.map (fun q =>
                match lookupProd (restoreItems (db.products.filter (fun q =>
                  (sale.items.map (fun i => i.product)).contains q.1)) sale.items) q.1 with
                | some p => (q.1, p)
                | none => q),
              sales := db.sales.map (fun s => if s.id == saleId then
                { s with isVoid := true, voidedAt := some now } else s) } := by
  unfold voidSale at h
  cases hf : db.sales.find? (fun s => s.id == saleId) with
  | none => rw [hf] at h; exact absurd h (by simp)
  | some sale =>
    rw [hf] at h
    dsimp only at h
    by_cases hv : sale.isVoid
    · rw [if_pos hv] at h; exact absurd h (by simp)
    · rw [if_neg hv] at h
      by_cases hnull : (sale.items.any
          (fun i => (lookupProd db.products i.product).isNone)) = true
      · rw [if_pos hnull] at h; exact absurd h (by simp)
      · rw [if_neg hnull] at h
        by_cases hl : (db.products.filter (fun q =>
            (sale.items.map (fun i => i.product)).contains q.1)).length
            = (sale.items.map (fun i => i.product)).length
        · rw [if_neg (by simpa using hl)] at h
          simp only [Except.ok.injEq, Prod.mk.injEq] at h
          exact ⟨sale, rfl, Bool.not_eq_true _ ▸ by simpa using hv,
            by simpa using hnull, hl, h.1.symm, h.2.symm⟩
        · rw [if_pos (by simpa using hl)] at h
          exact absurd h (by simp)

/-- Error inversion for `voidSale`. -/
theorem voidSale_error_inv (db : DB) (saleId : ℕ) (now : ℕ) (e : VoidErr)
    (h : voidSale db saleId now = .error e) :
    (db.sales.find? (fun s => s.id == saleId) = none ∧ e = .saleNotFound) ∨
    (∃ sale, db.sales.find? (fun s => s.id == saleId) = some sale ∧
      sale.isVoid = true ∧ e = .alreadyVoid) ∨
    (∃ sale, db.sales.find? (fun s => s.id == saleId) = some sale ∧
      sale.isVoid = false ∧
      (sale.items.any (fun i => (lookupProd db.products i.product).isNone)) = true ∧
      e = .typeError) ∨
    (∃ sale, db.sales.find? (fun s => s.id == saleId) = some sale ∧
      sale.isVoid = false ∧
      (sale.items.any (fun i => (lookupProd db.products i.product).isNone)) = false ∧
      (db.products.filter (fun q =>
        (sale.items.map (fun i => i.product)).contains q.1)).length
        ≠ (sale.items.map (fun i => i.product)).length ∧ e = .productsNotFound) := by
  unfold voidSale at h
  cases hf : db.sales.find? (fun s => s.id == saleId) with
  | none =>
    rw [hf] at h
    simp only [Except.error.injEq] at h
    exact Or.inl ⟨rfl, h.symm⟩
  | some sale =>
    rw [hf] at h
    dsimp only at h
    by_cases hv : sale.isVoid
    · rw [if_pos hv] at h
      simp only [Except.error.injEq] at h
      exact Or.inr (Or.inl ⟨sale, rfl, hv, h.symm⟩)
    · rw [if_neg hv] at h
      by_cases hnull : (sale.items.any
          (fun i => (lookupProd db.products i.product).isNone)) = true
      · rw [if_pos hnull] at h
        simp only [Except.error.injEq] at h
        exact Or.inr (Or.inr (Or.inl ⟨sale, rfl, by simpa using hv, hnull, h.symm⟩))
      · rw [if_neg hnull] at h
        by_cases hl : (db.products.filter (fun q =>
            (sale.items.map (fun i => i.product)).contains q.1)).length
            = (sale.items.map (fun i => i.product)).length
        · rw [if_neg (by simpa using hl)] at h
          exact absurd h (by simp)
        · rw [if_pos (by simpa using hl)] at h
          simp only [Except.error.injEq] at h
          exact Or.inr (Or.inr (Or.inr ⟨sale, rfl, by simpa using hv,
            by simpa using hnull, hl, h.symm⟩))

/-! ## Counting documents returned by `Product.find {$in: ids}` -/

/-- The `$in` filter on a duplicate-free store returns one document per
requested id when every requested id is present and the request is
duplicate-free. -/
theorem filter_contains_length_eq (ps : List (ℕ × Product)) (ids : List ℕ)
    (hk : (ps.map (fun q => q.1)).Nodup) (hids : ids.Nodup)
    (hsub : ∀ id ∈ ids, ∃ q ∈ ps, q.1 = id) :
    (ps.filter (fun q => ids.contains q.1)).length = ids.length := by
  have hmm : (ps.filter (fun q => ids.contains q.1)).map (fun q => q.1)
      = (ps.map (fun q => q.1)).filter (fun k => ids.contains k) := by
    rw [List.filter_map]
    rfl
  have hnodup : ((ps.filter (fun q => ids.contains q.1)).map (fun q => q.1)).Nodup := by
    rw [hmm]
    exact hk.filter _
  have hset : ((ps.filter (fun q => ids.contains q.1)).map (fun q => q.1)).toFinset
      = ids.toFinset := by
    apply Finset.Subset.antisymm
    · intro x hx
      rw [List.mem_toFinset] at hx
      rcases List.mem_map.mp hx with ⟨q, hq, hqe⟩
      have := (List.mem_filter.mp hq).2
      rw [List.mem_toFinset]
      rw [← hqe]
      simpa using this
    · intro x hx
      rw [List.mem_toFinset] at hx
      rw [List.mem_toFinset]
      rcases hsub x hx with ⟨q, hq, hqe⟩
      refine List.mem_map.mpr ⟨q, List.mem_filter.mpr ⟨hq, by simp [hqe, hx]⟩, hqe⟩
  have h1 := List.toFinset_card_of_nodup hnodup
  have h2 := List.toFinset_card_of_nodup hids
  rw [hset, h2] at h1
  have h3 := h1.symm
  rwa [List.length_map] at h3

/-- The `$in` filter on a duplicate-free store returns strictly fewer
documents than requested ids when some requested id is absent. -/
theorem filter_contains_length_lt (ps : List (ℕ × Product)) (ids : List ℕ)
    (hk : (ps.map (fun q => q.1)).Nodup) (hids : ids.Nodup) (m : ℕ) (hm : m ∈ ids)
    (hmiss : ∀ q ∈ ps, q.1 ≠ m) :
    (ps.filter (fun q => ids.contains q.1)).length < ids.length := by
  have hmm : (ps.filter (fun q => ids.contains q.1)).map (fun q => q.1)
      = (ps.map (fun q => q.1)).filter (fun k => ids.contains k) := by
    rw [List.filter_map]
    rfl
  have hnodup : ((ps.filter (fun q => ids.contains q.1)).map (fun q => q.1)).Nodup := by
    rw [hmm]
    exact hk.filter _
  have hsub : ((ps.filter (fun q => ids.contains q.1)).map (fun q => q.1)).toFinset
      ⊆ ids.toFinset.erase m := by
    intro x hx
    rw [List.mem_toFinset] at hx
    rcases List.mem_map.mp hx with ⟨q, hq, hqe⟩
    have h2 := (List.mem_filter.mp hq).2
    refine Finset.mem_erase.mpr ⟨?_, ?_⟩
    · rw [← hqe]
      exact hmiss q (List.mem_filter.mp hq).1
    · rw [List.mem_toFinset, ← hqe]
      simpa using h2
  have hcard := Finset.card_le_card hsub
  rw [List.toFinset_card_of_nodup hnodup] at hcard
  rw [List.length_map] at hcard
  have herase : (ids.toFinset.erase m).card < ids.toFinset.card :=
    Finset.card_erase_lt_of_mem (List.mem_toFinset.mpr hm)
  have := List.toFinset_card_of_nodup hids
  omega

/-- Conversely, if the `$in` filter on a duplicate-free store returned as
many documents as requested ids, the request was duplicate-free and every
requested id is present. -/
theorem filter_contains_length_eq_inv (ps : List (ℕ × Product)) (ids : List ℕ)
    (hk : (ps.map (fun q => q.1)).Nodup)
    (hlen : (ps.filter (fun q => ids.contains q.1)).length = ids.length) :
    ids.Nodup ∧ ∀ id ∈ ids, ∃ q ∈ ps, q.1 = id := by
  have hmm : (ps.filter (fun q => ids.contains q.1)).map (fun q => q.1)
      = (ps.map (fun q => q.1)).filter (fun k => ids.contains k) := by
    rw [List.filter_map]
    rfl
  have hnodup : ((ps.filter (fun q => ids.contains q.1)).map (fun q => q.1)).Nodup := by
    rw [hmm]
    exact hk.filter _
  have hsub : ((ps.filter (fun q => ids.contains q.1)).map (fun q => q.1)).toFinset
      ⊆ ids.toFinset := by
    intro x hx
    rw [List.mem_toFinset] at hx
    rcases List.mem_map.mp hx with ⟨q, hq, hqe⟩
    have := (List.mem_filter.mp hq).2
    rw [List.mem_toFinset, ← hqe]
    simpa using this
  have hcard := Finset.card_le_card hsub
  have hfc := List.toFinset_card_of_nodup hnodup
  rw [hfc, List.length_map, hlen] at hcard
  have hle := List.toFinset_card_le (l := ids)
  have hcard2 : ids.toFinset.card = ids.length := le_antisymm (List.toFinset_card_le _) hcard
  constructor
  · have hdl : ids.dedup.length = ids.length := by
      rw [← List.card_toFinset]
      exact hcard2
    have : ids.dedup = ids := (List.dedup_sublist ids).eq_of_length hdl
    rw [← this]
    exact List.nodup_dedup ids
  · have heq : ((ps.filter (fun q => ids.contains q.1)).map (fun q => q.1)).toFinset
        = ids.toFinset := by
      apply Finset.eq_of_subset_of_card_le hsub
      rw [hfc, List.length_map, hlen, hcard2]
    intro id hid
    have : id ∈ ((ps.filter (fun q => ids.contains q.1)).map (fun q => q.1)).toFinset := by
      rw [heq, List.mem_toFinset]
      exact hid
    rw [List.mem_toFinset] at this
    rcases List.mem_map.mp this with ⟨q, hq, hqe⟩
    exact ⟨q, (List.mem_filter.mp hq).1, hqe⟩

/-! ## Preservation of the stock invariant -/

theorem createSale_preserves_nonneg (off : ℕ) (db : DB) (items : List CartItem)
    (d : Option ℚ) (now : ℕ) (sale : SaleDoc) (db' : DB) (hn : stockNonneg db)
    (h : createSale off db items d now = .ok (sale, db')) : stockNonneg db' := by
  obtain ⟨s, its, upd, _, hp, _, hdb'⟩ := createSale_ok_inv off db items d now sale db' h
  rw [hdb']
  intro q hq
  rcases List.mem_map.mp hq with ⟨q0, hq0, hq0e⟩
  have hupd : ∀ q ∈ upd, 0 ≤ q.2.stockQuantity :=
    processItems_nonneg items _ 0 [] s its upd
      (fun q hq => hn q (List.mem_filter.mp hq).1) hp
  cases hu : lookupProd upd q0.1 with
  | some p =>
    rw [hu] at hq0e
    rw [← hq0e]
    simpa using hupd _ (lookupProd_mem hu)
  | none =>
    rw [hu] at hq0e
    rw [← hq0e]
    exact hn q0 hq0

theorem voidSale_preserves_nonneg (db : DB) (saleId now : ℕ) (sale' : SaleDoc)
    (db' : DB) (hn : stockNonneg db)
    (h : voidSale db saleId now = .ok (sale', db')) : stockNonneg db' := by
  obtain ⟨sale, _, _, _, _, _, hdb'⟩ := voidSale_ok_inv db saleId now sale' db' h
  rw [hdb']
  intro q hq
  rcases List.mem_map.mp hq with ⟨q0, hq0, hq0e⟩
  have hupd : ∀ q ∈ restoreItems (db.products.filter (fun q =>
      (sale.items.map (fun i => i.product)).contains q.1)) sale.items,
      0 ≤ q.2.stockQuantity :=
    restoreItems_nonneg sale.items _ (fun q hq => hn q (List.mem_filter.mp hq).1)
  cases hu : lookupProd (restoreItems (db.products.filter (fun q =>
      (sale.items.map (fun i => i.product)).contains q.1)) sale.items) q0.1 with
  | some p =>
    rw [hu] at hq0e
    rw [← hq0e]
    simpa using hupd _ (lookupProd_mem hu)
  | none =>
    rw [hu] at hq0e
    rw [← hq0e]
    exact hn q0 hq0

theorem applyOp_preserves_nonneg (off : ℕ) (db : DB) (op : Op) (hn : stockNonneg db) :
    stockNonneg (applyOp off db op) := by
  cases op with
  | create items d t =>
    simp only [applyOp]
    cases h : createSale off db items d t with
    | ok r =>
      exact createSale_preserves_nonneg off db items d t r.1 r.2 hn (by rw [h])
    | error e => exact hn
  | void sid t =>
    simp only [applyOp]
    cases h : voidSale db sid t with
    | ok r =>
      exact voidSale_preserves_nonneg db sid t r.1 r.2 hn (by rw [h])
    | error e => exact hn

/-! ## The claims -/

/-- C1: the claim says the sale numbering operation returns strings that are
pairwise distinct and strictly increasing for every sequence of `createSale`
calls within one calendar day, under one consistently applied timezone
convention.  The code violates it: `generateSaleNumber` stamps the *UTC*
calendar date (`toISOString`) but counts existing sales over the *server-local*
calendar day (`setHours`), so on a UTC+5 server two sequential sales at
2024-01-02T02:00Z and 2024-01-02T20:00Z — the same stamped UTC calendar day —
both receive the number `"SALE-20240102-0001"`: the count window rolls over at
local midnight (19:00Z) while the stamped date does not.  This also
contradicts the function's own documentation ("Generate unique sale
number"). -/
theorem generateSaleNumber_duplicate_in_calendar_day :
    utcDay t0102at02 = utcDay t0102at20 ∧
    (createSale offP5 dbOne [{ product := 1, quantity := 1 }] none t0102at02).map
      (fun r => r.1.saleNumber) = .ok "SALE-20240102-0001" ∧
    (createSale offP5
        (applyOp offP5 dbOne (.create [{ product := 1, quantity := 1 }] none t0102at02))
        [{ product := 1, quantity := 1 }] none t0102at20).map
      (fun r => r.1.saleNumber) = .ok "SALE-20240102-0001" := by
  decide

/-- C2: starting from a store in which every product's `stockQuantity` is
non-negative, any sequence of `createSale`/`voidSale` requests leaves every
product's `stockQuantity` non-negative (each decrement is guarded by the
insufficient-stock check, restores only add, failed requests change
nothing). -/
theorem runOps_stock_never_negative (off : ℕ) (db : DB) (hn : stockNonneg db)
    (ops : List Op) : stockNonneg (runOps off db ops) := by
  induction ops generalizing db with
  | nil => exact hn
  | cons op rest ih =>
    exact ih (applyOp off db op) (applyOp_preserves_nonneg off db op hn)

/-- Witness for C2 on concrete data: a sale of 3 units from stock 5 followed
by its void. -/
theorem runOps_stock_never_negative_witness :
    stockNonneg dbScenC ∧
    stockNonneg (runOps 0 dbScenC
      [.create [{ product := 1, quantity := 3 }] none 0, .void 0 1000]) :=
  ⟨by decide, runOps_stock_never_negative 0 dbScenC (by decide) _⟩

/-- C4: when `createSale` rejects a cart (missing product, duplicate cart
line or insufficient stock on *any* line), the persistent state is returned
unchanged: no partial stock decrement survives and no sale document is
persisted — the controller mutates only in-memory documents before the first
failure and saves nothing on the error paths. -/
theorem createSale_error_leaves_state_unchanged (off : ℕ) (db : DB)
    (items : List CartItem) (d : Option ℚ) (now : ℕ) (e : CreateErr)
    (h : createSale off db items d now = .error e) :
    applyOp off db (.create items d now) = db := by
  simp only [applyOp, h]

/-- Witness for C4: the spec's Scenario C — product 1 has stock 5, product 2
has stock 0; the cart `[{1, 2}, {2, 1}]` fails on product 2's shortage and
product 1's stock is still 5 (the whole state is unchanged). -/
theorem createSale_error_leaves_state_unchanged_witness :
    createSale 0 dbScenC
        [{ product := 1, quantity := 2 }, { product := 2, quantity := 1 }] none 0
      = .error (.insufficientStock 2 0 1) ∧
    applyOp 0 dbScenC
      (.create [{ product := 1, quantity := 2 }, { product := 2, quantity := 1 }] none 0)
      = dbScenC :=
  ⟨by decide,
    createSale_error_leaves_state_unchanged 0 dbScenC
      [{ product := 1, quantity := 2 }, { product := 2, quantity := 1 }] none 0
      (.insufficientStock 2 0 1) (by decide)⟩

/-- C3: when `createSale` succeeds on a duplicate-free store, every cart
line's product ends with exactly its pre-call stock minus the requested
quantity (and is otherwise unchanged).  Sufficiency of stock for every line
is implied by success; carts with repeated products never succeed (the
document-count check rejects them). -/
theorem createSale_decrements_each_product (off : ℕ) (db : DB)
    (items : List CartItem) (d : Option ℚ) (now : ℕ) (sale : SaleDoc) (db' : DB)
    (hk : (db.products.map (fun q => q.1)).Nodup)
    (h : createSale off db items d now = .ok (sale, db')) :
    ∀ it ∈ items, ∃ p, lookupProd db.products it.product = some p ∧
      lookupProd db'.products it.product =
        some { p with stockQuantity := p.stockQuantity - (it.quantity : ℤ) } := by
  obtain ⟨s, its, upd, hlen, hp, _, hdb'⟩ :=
    createSale_ok_inv off db items d now sale db' h
  obtain ⟨hids, hpres⟩ :=
    filter_contains_length_eq_inv db.products (items.map (fun i => i.product)) hk
      (by rw [hlen, List.length_map])
  intro it hit
  have hmemid : it.product ∈ items.map (fun i => i.product) :=
    List.mem_map_of_mem _ hit
  have hfl : lookupProd (db.products.filter (fun q =>
      (items.map (fun i => i.product)).contains q.1)) it.product
      = lookupProd db.products it.product :=
    lookupProd_filter _ (fun q hq => by simp [hq, hmemid])
  obtain ⟨p, hp1, hp2⟩ := processItems_stock items _ 0 [] s its upd hids hp it hit
  rw [hfl] at hp1
  refine ⟨p, hp1, ?_⟩
  rw [hdb']
  show lookupProd (db.products.map _) it.product = _
  rw [lookupProd_saved, hp1, hp2]

/-- Witness for C3: selling 3 units of product 1 (stock 5) out of `dbScenC`
leaves product 1 with stock 2. -/
theorem createSale_decrements_each_product_witness :
    (dbScenC.products.map (fun q => q.1)).Nodup ∧
    match createSale 0 dbScenC [{ product := 1, quantity := 3 }] none 5 with
    | .ok r => lookupProd r.2.products 1 =
        some { name := "A", price := 1, stockQuantity := 2, isActive := true }
    | .error _ => False := by
  refine ⟨by decide, ?_⟩
  cases hc : createSale 0 dbScenC [{ product := 1, quantity := 3 }] none 5 with
  | error e =>
    have hok : (createSale 0 dbScenC [{ product := 1, quantity := 3 }] none 5).isOk
        = true := by decide
    rw [hc] at hok
    simp [Except.isOk, Except.toBool] at hok
  | ok r =>
    obtain ⟨p, hp1, hp2⟩ :=
      createSale_decrements_each_product 0 dbScenC
        [{ product := 1, quantity := 3 }] none 5 r.1 r.2 (by decide) (by rw [hc])
        { product := 1, quantity := 3 } (by simp)
    have hpv : p = { name := "A", price := 1, stockQuantity := 5, isActive := true } := by
      have he : lookupProd dbScenC.products 1 =
          some { name := "A", price := 1, stockQuantity := 5, isActive := true } := by
        decide
      rw [he] at hp1
      exact Option.some_injective _ hp1.symm
    rw [hpv] at hp2
    simpa using hp2

/-- C6 counterexample: the claim says `total == round(subtotal +
subtotal×0.12 − discount, 2)` for every created sale, but the controller
never rounds: selling one unit priced 9.99 gives total 11.1888, while the
claimed rounded value is 11.19. -/
theorem createSale_total_not_rounded_cex :
    match createSale 0 dbCent [{ product := 1, quantity := 1 }] none 0 with
    | .ok r => ¬ totalRoundedClaim r.1
    | .error _ => False := by
  simp only [createSale, processItems, lookupProd, writeProd, totalRoundedClaim, roundTo2,
    List.map, List.filter, List.find?, List.length, vatRate]
  norm_num [round_eq, Int.floor_eq_iff]

/-- C6 (amended): for every sale `createSale` persists,
`total = subtotal + subtotal×0.12 − discount` holds *exactly* (no rounding to
two decimals is applied), with `discount = 0`, `tax = subtotal×0.12`, and
`subtotal` the sum over the line items of `unitPrice × quantity`. -/
theorem createSale_total_exact (off : ℕ) (db : DB) (items : List CartItem)
    (d : Option ℚ) (now : ℕ) (sale : SaleDoc) (db' : DB)
    (h : createSale off db items d now = .ok (sale, db')) :
    sale.discount = 0 ∧
    sale.tax = sale.subtotal * vatRate ∧
    sale.total = sale.subtotal + sale.subtotal * (12 / 100) - sale.discount ∧
    sale.subtotal = (sale.items.map (fun it => it.price * (it.quantity : ℚ))).sum := by
  obtain ⟨s, its, upd, _, hp, hsale, _⟩ := createSale_ok_inv off db items d now sale db' h
  obtain ⟨newItems, h1, h2, h3⟩ := processItems_ok_shape items _ 0 [] s its upd hp
  subst hsale
  refine ⟨rfl, rfl, ?_, ?_⟩
  · show s + s * vatRate = s + s * (12 / 100) - 0
    unfold vatRate
    ring
  · show s = (its.map (fun it => it.price * (it.quantity : ℚ))).sum
    have hits : its = newItems := by simpa using h1
    subst hits
    rw [h2]
    have hmap : its.map (fun it => it.price * (it.quantity : ℚ))
        = its.map (fun it => it.subtotal) := by
      apply List.map_congr_left
      intro a ha
      exact (h3 a ha).symm
    rw [hmap]
    ring

/-- Witness for C6 (amended) on concrete data: selling 3 units of product 1
from `dbOne`. -/
theorem createSale_total_exact_witness :
    match createSale 0 dbOne [{ product := 1, quantity := 3 }] none 0 with
    | .ok r => r.1.discount = 0 ∧
        r.1.tax = r.1.subtotal * vatRate ∧
        r.1.total = r.1.subtotal + r.1.subtotal * (12 / 100) - r.1.discount ∧
        r.1.subtotal = (r.1.items.map (fun it => it.price * (it.quantity : ℚ))).sum
    | .error _ => False := by
  cases hc : createSale 0 dbOne [{ product := 1, quantity := 3 }] none 0 with
  | error e =>
    have hok : (createSale 0 dbOne [{ product := 1, quantity := 3 }] none 0).isOk
        = true := by decide
    rw [hc] at hok
    simp [Except.isOk, Except.toBool] at hok
  | ok r =>
    exact createSale_total_exact 0 dbOne [{ product := 1, quantity := 3 }] none 0
      r.1 r.2 (by rw [hc])

/-- C7 counterexample: the claim says a caller-supplied discount is persisted
and subtracted; the controller destructures the body without `discount` and
hardcodes `discount = 0`, so a call supplying discount 5 persists discount 0,
not 5. -/
theorem createSale_supplied_discount_dropped_cex :
    (createSale 0 dbOne [{ product := 1, quantity := 1 }] (some 5) 0).map
      (fun r => r.1.discount) = .ok 0 ∧ (5 : ℚ) ≠ 0 := by
  constructor
  · rfl
  · decide

/-- C7 (amended): `createSale` persists `discount = 0` whether or not the
caller supplies a discount; the supplied value is ignored entirely (the
response is independent of it) and `total = subtotal + tax − discount` holds
with that zero discount. -/
theorem createSale_discount_always_zero (off : ℕ) (db : DB) (items : List CartItem)
    (d : Option ℚ) (now : ℕ) (sale : SaleDoc) (db' : DB)
    (h : createSale off db items d now = .ok (sale, db')) :
    sale.discount = 0 ∧
    sale.total = sale.subtotal + sale.tax - sale.discount ∧
    ∀ d' : Option ℚ, createSale off db items d' now = createSale off db items d now := by
  obtain ⟨s, its, upd, _, hp, hsale, _⟩ := createSale_ok_inv off db items d now sale db' h
  subst hsale
  refine ⟨rfl, ?_, fun d' => rfl⟩
  show s + s * vatRate = s + s * vatRate - 0
  ring

/-- Witness for C7 (amended): a call that supplies discount 5. -/
theorem createSale_discount_always_zero_witness :
    match createSale 0 dbOne [{ product := 1, quantity := 1 }] (some 5) 0 with
    | .ok r => r.1.discount = 0 ∧
        r.1.total = r.1.subtotal + r.1.tax - r.1.discount ∧
        ∀ d' : Option ℚ, createSale 0 dbOne [{ product := 1, quantity := 1 }] d' 0
          = createSale 0 dbOne [{ product := 1, quantity := 1 }] (some 5) 0
    | .error _ => False := by
  cases hc : createSale 0 dbOne [{ product := 1, quantity := 1 }] (some 5) 0 with
  | error e =>
    have hok : (createSale 0 dbOne [{ product := 1, quantity := 1 }] (some 5) 0).isOk
        = true := by decide
    rw [hc] at hok
    simp [Except.isOk, Except.toBool] at hok
  | ok r =>
    obtain ⟨ha, hb, hcx⟩ :=
      createSale_discount_always_zero 0 dbOne [{ product := 1, quantity := 1 }]
        (some 5) 0 r.1 r.2 (by rw [hc])
    exact ⟨ha, hb, fun d' => (hcx d').trans hc⟩

/-- C8 counterexample: the claim says each cart line must resolve to an
*active* product or the call fails NotFound; but `createSale` queries
`Product.find {_id: {$in: ids}}` with no `isActive` filter, so a cart
referencing an existing but inactive product (with stock) succeeds instead of
failing. -/
theorem createSale_sells_inactive_product_cex :
    (createSale 0 dbInactive [{ product := 1, quantity := 2 }] none 0).isOk = true ∧
    (lookupProd dbInactive.products 1).map (fun p => p.isActive) = some false := by
  decide

/-- C8 (amended): `createSale` resolves each cart line to an *existing*
product regardless of its `isActive` flag: on a duplicate-free store, a
duplicate-free cart whose products all exist with sufficient stock succeeds —
no hypothesis about `isActive` is needed.  (NotFound arises only for absent
ids or repeated cart lines.) -/
theorem createSale_ignores_isActive (off : ℕ) (db : DB) (items : List CartItem)
    (d : Option ℚ) (now : ℕ)
    (hk : (db.products.map (fun q => q.1)).Nodup)
    (hids : (items.map (fun i => i.product)).Nodup)
    (hok : ∀ it ∈ items, ∃ p, lookupProd db.products it.product = some p ∧
      (it.quantity : ℤ) ≤ p.stockQuantity) :
    (createSale off db items d now).isOk = true := by
  have hlen : (db.products.filter (fun q =>
      (items.map (fun i => i.product)).contains q.1)).length
      = (items.map (fun i => i.product)).length := by
    apply filter_contains_length_eq db.products _ hk hids
    intro id hid
    rcases List.mem_map.mp hid with ⟨it, hit, hide⟩
    obtain ⟨p, hp, _⟩ := hok it hit
    exact ⟨(id, p), by rw [← hide]; exact lookupProd_mem hp, rfl⟩
  have hok' : ∀ it ∈ items, ∃ p, lookupProd (db.products.filter (fun q =>
      (items.map (fun i => i.product)).contains q.1)) it.product = some p ∧
      (it.quantity : ℤ) ≤ p.stockQuantity := by
    intro it hit
    have hmemid : it.product ∈ items.map (fun i => i.product) :=
      List.mem_map_of_mem _ hit
    obtain ⟨p, hp, hq⟩ := hok it hit
    exact ⟨p, by rw [lookupProd_filter _ (fun q hq' => by simp [hq', hmemid])]; exact hp, hq⟩
  obtain ⟨s, its, upd, hp⟩ := processItems_isOk items _ 0 [] hids hok'
  unfold createSale
  rw [if_neg (by rw [hlen, List.length_map]; simp), hp]
  rfl

/-- Witness for C8 (amended): the inactive product of `dbInactive` is sold
without any NotFound failure. -/
theorem createSale_ignores_isActive_witness :
    (dbInactive.products.map (fun q => q.1)).Nodup ∧
    (([{ product := 1, quantity := 2 }] : List CartItem).map (fun i => i.product)).Nodup ∧
    (createSale 0 dbInactive [{ product := 1, quantity := 2 }] none 0).isOk = true := by
  refine ⟨by decide, by decide, ?_⟩
  apply createSale_ignores_isActive 0 dbInactive [{ product := 1, quantity := 2 }] none 0
    (by decide) (by decide)
  intro it hit
  have : it = { product := 1, quantity := 2 } := by
    simpa using hit
  subst this
  exact ⟨{ name := "P", price := 2, stockQuantity := 10, isActive := false },
    by decide, by decide⟩

theorem find?_id_map (sales : List SaleDoc) (sid : ℕ) (f : SaleDoc → SaleDoc)
    (hf : ∀ s, (f s).id = s.id) :
    (sales.map f).find? (fun s => s.id == sid)
      = (sales.find? (fun s => s.id == sid)).map f := by
  induction sales with
  | nil => rfl
  | cons s rest ih =>
    by_cases hs : s.id = sid
    · rw [List.map_cons, List.find?_cons_of_pos _ (by simp [hf, hs]),
        List.find?_cons_of_pos _ (by simp [hs])]
      rfl
    · rw [List.map_cons, List.find?_cons_of_neg _ (by simp [hf, hs]),
        List.find?_cons_of_neg _ (by simp [hs])]
      exact ih

/-- C5: on a duplicate-free store, voiding an existing non-void sale whose
line items are duplicate-free and whose products all exist succeeds, adds
each line's quantity back to its product's stock, and flips `isVoid`; a
second `voidSale` on the same sale then fails `AlreadyVoid` before touching
anything, so the state is unchanged. -/
theorem voidSale_restores_stock_once (db : DB) (sid now now' off : ℕ) (sale : SaleDoc)
    (hk : (db.products.map (fun q => q.1)).Nodup)
    (hf : db.sales.find? (fun s => s.id == sid) = some sale)
    (hnv : sale.isVoid = false)
    (hnd : (sale.items.map (fun i => i.product)).Nodup)
    (hpres : ∀ it ∈ sale.items, (lookupProd db.products it.product).isSome) :
    ∃ db', voidSale db sid now
        = .ok ({ sale with isVoid := true, voidedAt := some now }, db') ∧
      (∀ it ∈ sale.items, ∃ p, lookupProd db.products it.product = some p ∧
        lookupProd db'.products it.product =
          some { p with stockQuantity := p.stockQuantity + (it.quantity : ℤ) }) ∧
      voidSale db' sid now' = .error .alreadyVoid ∧
      applyOp off db' (.void sid now') = db' := by
  have hlen : (db.products.filter (fun q =>
      (sale.items.map (fun i => i.product)).contains q.1)).length
      = (sale.items.map (fun i => i.product)).length := by
    apply filter_contains_length_eq db.products _ hk hnd
    intro id hid
    rcases List.mem_map.mp hid with ⟨it, hit, hide⟩
    have hp := hpres it hit
    cases hl : lookupProd db.products it.product with
    | none => rw [hl] at hp; exact absurd hp (by simp)
    | some p => exact ⟨(id, p), by rw [← hide]; exact lookupProd_mem hl, rfl⟩
  cases hv0 : voidSale db sid now with
  | error e =>
    exfalso
    rcases voidSale_error_inv db sid now e hv0 with
      ⟨hn, _⟩ | ⟨sale0, hf0, hv, _⟩ | ⟨sale0, hf0, _, hnl, _⟩ | ⟨sale0, hf0, _, _, hl0, _⟩
    · rw [hf] at hn; exact absurd hn (by simp)
    · rw [hf] at hf0
      have hs : sale = sale0 := Option.some_injective _ hf0
      subst hs
      rw [hnv] at hv
      exact absurd hv (by simp)
    · rw [hf] at hf0
      have hs : sale = sale0 := Option.some_injective _ hf0
      subst hs
      rcases List.any_eq_true.mp hnl with ⟨it, hit, hitn⟩
      have hp := hpres it hit
      cases hl0 : lookupProd db.products it.product with
      | none => rw [hl0] at hp; exact absurd hp (by simp)
      | some p => rw [hl0] at hitn; exact absurd hitn (by simp)
    · rw [hf] at hf0
      have hs : sale = sale0 := Option.some_injective _ hf0
      subst hs
      exact hl0 hlen
  | ok r =>
    obtain ⟨sale0, hf0, _, _, _, hr1, hr2⟩ := voidSale_ok_inv db sid now r.1 r.2
      (by rw [hv0])
    rw [hf] at hf0
    have hs0 : sale = sale0 := Option.some_injective _ hf0
    subst hs0
    have hr : r = ({ sale with isVoid := true, voidedAt := some now },
        { products := db.products.map (fun q =>
            match lookupProd (restoreItems (db.products.filter (fun q =>
              (sale.items.map (fun i => i.product)).contains q.1)) sale.items) q.1 with
            | some p => (q.1, p)
            | none => q),
          sales := db.sales.map (fun s => if s.id == sid then
            { s with isVoid := true, voidedAt := some now } else s) }) := by
      rw [← hr1, ← hr2]
    have hsid : sale.id = sid := by
      have hps := List.find?_some hf
      simpa using hps
    have hfind' : r.2.sales.find? (fun s => s.id == sid)
        = some { sale with isVoid := true, voidedAt := some now } := by
      rw [hr]
      dsimp only
      rw [find?_id_map _ _ _ (fun s => by by_cases h : (s.id == sid) = true <;> simp [h])]
      rw [hf]
      simp [hsid]
    refine ⟨r.2, by rw [← hr1], ?_, ?_, ?_⟩
    · intro it hit
      have hmemid : it.product ∈ sale.items.map (fun i => i.product) :=
        List.mem_map_of_mem _ hit
      have hfl : ∀ id', id' ∈ sale.items.map (fun i => i.product) →
          lookupProd (db.products.filter (fun q =>
            (sale.items.map (fun i => i.product)).contains q.1)) id'
          = lookupProd db.products id' := by
        intro id' hid'
        exact lookupProd_filter _ (fun q hq => by simp [hq, hid'])
      have hpres' : ∀ it' ∈ sale.items, (lookupProd (db.products.filter (fun q =>
          (sale.items.map (fun i => i.product)).contains q.1)) it'.product).isSome := by
        intro it' hit'
        rw [hfl it'.product (List.mem_map_of_mem _ hit')]
        exact hpres it' hit'
      obtain ⟨p, hp1, hp2⟩ := restoreItems_stock sale.items _ hnd hpres' it hit
      rw [hfl it.product hmemid] at hp1
      refine ⟨p, hp1, ?_⟩
      rw [hr]
      dsimp only
      rw [lookupProd_saved, hp1, hp2]
    · cases hv1 : voidSale r.2 sid now' with
      | ok r' =>
        exfalso
        obtain ⟨sale1, hf1, hnv1, _, _, _, _⟩ := voidSale_ok_inv r.2 sid now' r'.1 r'.2
          (by rw [hv1])
        rw [hfind'] at hf1
        rw [← Option.some_injective _ hf1] at hnv1
        exact absurd hnv1 (by simp)
      | error e =>
        rcases voidSale_error_inv r.2 sid now' e hv1 with
          ⟨hn, _⟩ | ⟨sale1, hf1, _, he⟩ | ⟨sale1, hf1, hnv1, _, _⟩ |
          ⟨sale1, hf1, hnv1, _, _, _⟩
        · rw [hfind'] at hn; exact absurd hn (by simp)
        · rw [he]
        · exfalso
          rw [hfind'] at hf1
          rw [← Option.some_injective _ hf1] at hnv1
          exact absurd hnv1 (by simp)
        · exfalso
          rw [hfind'] at hf1
          rw [← Option.some_injective _ hf1] at hnv1
          exact absurd hnv1 (by simp)
    · cases hv1 : voidSale r.2 sid now' with
      | ok r' =>
        exfalso
        obtain ⟨sale1, hf1, hnv1, _, _, _, _⟩ := voidSale_ok_inv r.2 sid now' r'.1 r'.2
          (by rw [hv1])
        rw [hfind'] at hf1
        rw [← Option.some_injective _ hf1] at hnv1
        exact absurd hnv1 (by simp)
      | error e => simp [applyOp, hv1]

/-- Witness for C5: voiding `saleV` (3 units of product 1) in `dbVoid`
raises product 1's stock from 7 to 10, marks the sale void, and a second
void attempt fails `AlreadyVoid`. -/
theorem voidSale_restores_stock_once_witness :
    (dbVoid.products.map (fun q => q.1)).Nodup ∧
    dbVoid.sales.find? (fun s => s.id == 0) = some saleV ∧
    saleV.isVoid = false ∧
    (saleV.items.map (fun i => i.product)).Nodup ∧
    match voidSale dbVoid 0 50 with
    | .ok r =>
        r.1.isVoid = true ∧
        lookupProd r.2.products 1 =
          some { name := "P", price := 1, stockQuantity := 10, isActive := true } ∧
        voidSale r.2 0 60 = .error .alreadyVoid
    | .error _ => False := by
  refine ⟨by decide, by decide, by decide, by decide, ?_⟩
  obtain ⟨db', hok, hstock, hsecond, _⟩ :=
    voidSale_restores_stock_once dbVoid 0 50 60 0 saleV (by decide) (by decide)
      (by decide) (by decide) (by decide)
  rw [hok]
  refine ⟨rfl, ?_, hsecond⟩
  obtain ⟨p, hp1, hp2⟩ :=
    hstock { product := 1, quantity := 3, price := 1, subtotal := 3 } (by decide)
  dsimp only at hp1 hp2
  have hpv : p = { name := "P", price := 1, stockQuantity := 7, isActive := true } := by
    have he : lookupProd dbVoid.products 1 =
        some { name := "P", price := 1, stockQuantity := 7, isActive := true } := by
      decide
    rw [he] at hp1
    exact Option.some_injective _ hp1.symm
  rw [hpv] at hp2
  simpa using hp2

/-- C10 counterexample: the claim identifies the missing-product failure of
`voidSale` as a *product-not-found* error, but at exactly that input the
controller throws a `TypeError` first: the sale is loaded with
`populate('items.product')`, a missing product leaves `item.product = null`,
and `item.product._id` on line 213 dereferences `null` before
`Product.find` ever runs — the "One or more products not found" 404 is
unreachable for absent products. -/
theorem voidSale_missing_product_cex :
    dbMiss.sales.find? (fun s => s.id == 0) = some saleM ∧
    saleM.isVoid = false ∧
    lookupProd dbMiss.products 2 = none ∧
    voidSale dbMiss 0 50 = .error .typeError ∧
    voidSale dbMiss 0 50 ≠ .error .productsNotFound := by
  decide

/-- C10 (amended): when the sale exists and is not void but some referenced
product is absent from the product store, `voidSale` fails with the
`TypeError` raised while building `productIds` (forwarded by the `catch` as
a generic server error — an outcome outside the spec's
NotFound | AlreadyVoid interface, though not the product-not-found 404 the
original claim named); the failure happens before any stock restore or any
`isVoid` write, so the whole state is unchanged. -/
theorem voidSale_missing_product_no_restore (db : DB) (sid now off : ℕ)
    (sale : SaleDoc) (m : SaleItem)
    (hf : db.sales.find? (fun s => s.id == sid) = some sale)
    (hnv : sale.isVoid = false)
    (hm : m ∈ sale.items)
    (hmiss : lookupProd db.products m.product = none) :
    voidSale db sid now = .error .typeError ∧
    applyOp off db (.void sid now) = db := by
  have hnull : (sale.items.any
      (fun i => (lookupProd db.products i.product).isNone)) = true :=
    List.any_eq_true.mpr ⟨m, hm, by rw [hmiss]; rfl⟩
  have hv : voidSale db sid now = .error .typeError := by
    unfold voidSale
    rw [hf]
    dsimp only
    rw [if_neg (by simp [hnv]), if_pos hnull]
  exact ⟨hv, by simp [applyOp, hv]⟩

/-- Witness for C10 (amended): `saleM` in `dbMiss` references product 2,
which is not in the store; the void attempt fails with the `TypeError`
outcome and changes nothing. -/
theorem voidSale_missing_product_no_restore_witness :
    dbMiss.sales.find? (fun s => s.id == 0) = some saleM ∧
    saleM.isVoid = false ∧
    lookupProd dbMiss.products 2 = none ∧
    voidSale dbMiss 0 50 = .error .typeError ∧
    applyOp 0 dbMiss (.void 0 50) = dbMiss := by
  refine ⟨by decide, by decide, by decide, ?_, ?_⟩
  · exact (voidSale_missing_product_no_restore dbMiss 0 50 0 saleM
      { product := 2, quantity := 1, price := 1, subtotal := 1 }
      (by decide) (by decide) (by decide) (by decide)).1
  · exact (voidSale_missing_product_no_restore dbMiss 0 50 0 saleM
      { product := 2, quantity := 1, price := 1, subtotal := 1 }
      (by decide) (by decide) (by decide) (by decide)).2

/-! ## Lemmas about the `$group` fold of `getTopProducts` -/

theorem filter_product_eq_singleton {gs : List TopGroup} {g0 : TopGroup}
    (hnd : (gs.map (fun g => g.product)).Nodup) (hg : g0 ∈ gs) :
    gs.filter (fun g => g.product == g0.product) = [g0] := by
  induction gs with
  | nil => exact absurd hg (by simp)
  | cons a rest ih =>
    simp only [List.map_cons, List.nodup_cons] at hnd
    rcases List.mem_cons.mp hg with heq | hmem
    · subst heq
      rw [List.filter_cons_of_pos (by simp)]
      rw [List.filter_eq_nil_iff.mpr]
      intro g hgr
      simp only [beq_iff_eq]
      intro he
      exact hnd.1 (he ▸ List.mem_map_of_mem (fun g => g.product) hgr)
    · have hne : a.product ≠ g0.product := by
        intro he
        exact hnd.1 (he ▸ List.mem_map_of_mem (fun g => g.product) hmem)
      rw [List.filter_cons_of_neg (by simpa using hne)]
      exact ih hnd.2 hmem

/-- One step of the `$group` fold: group keys stay duplicate-free, and each
per-product aggregate grows by the folded line item's contribution. -/
theorem addItem_view (acc : List TopGroup) (it : SaleItem) (pid : ℕ)
    (hnd : (acc.map (fun g => g.product)).Nodup) :
    ((addItem acc it).map (fun g => g.product)).Nodup ∧
    grpQty (addItem acc it) pid
      = grpQty acc pid + (if it.product = pid then it.quantity else 0) ∧
    grpRev (addItem acc it) pid
      = grpRev acc pid + (if it.product = pid then it.subtotal else 0) ∧
    grpCnt (addItem acc it) pid
      = grpCnt acc pid + (if it.product = pid then 1 else 0) := by
  unfold addItem
  by_cases hany : acc.any (fun g => g.product == it.product)
  · rw [if_pos hany]
    set u : TopGroup → TopGroup := fun g =>
      if g.product == it.product then
        { g with totalQuantity := g.totalQuantity + it.quantity,
                 totalRevenue := g.totalRevenue + it.subtotal,
                 saleCount := g.saleCount + 1 }
      else g with hu
    have hukey : ∀ g : TopGroup, (u g).product = g.product := by
      intro g
      rw [hu]
      dsimp only
      split <;> rfl
    have hkeys : (acc.map u).map (fun g => g.product) = acc.map (fun g => g.product) := by
      rw [List.map_map]
      exact List.map_congr_left (fun g _ => hukey g)
    have hfm : ∀ pid' : ℕ, (acc.map u).filter (fun g => g.product == pid')
        = (acc.filter (fun g => g.product == pid')).map u := by
      intro pid'
      rw [List.filter_map]
      congr 1
      apply List.filter_congr
      intro g _
      simp [Function.comp, hukey g]
    obtain ⟨g0, hg0, hg0p⟩ := List.any_eq_true.mp hany
    have hg0p' : g0.product = it.product := by simpa using hg0p
    by_cases hp : it.product = pid
    · have hfl : acc.filter (fun g => g.product == pid) = [g0] := by
        rw [← hp, ← hg0p']
        exact filter_product_eq_singleton hnd hg0
      refine ⟨by rw [hkeys]; exact hnd, ?_, ?_, ?_⟩
      · unfold grpQty
        rw [hfm pid, hfl, if_pos hp]
        simp [hu, hg0p']
      · unfold grpRev
        rw [hfm pid, hfl, if_pos hp]
        simp [hu, hg0p']
      · unfold grpCnt
        rw [hfm pid, hfl, if_pos hp]
        simp [hu, hg0p']
    · have hmapu : ∀ g ∈ acc.filter (fun g => g.product == pid), u g = g := by
        intro g hgf
        have hgp : g.product = pid := by simpa using (List.mem_filter.mp hgf).2
        have hcf : (g.product == it.product) = false := by
          simp only [beq_eq_false_iff_ne, ne_eq, hgp]
          intro he
          exact hp he.symm
        rw [hu]
        dsimp only
        rw [hcf]
        simp
      refine ⟨by rw [hkeys]; exact hnd, ?_, ?_, ?_⟩
      · unfold grpQty
        rw [hfm pid, if_neg hp, List.map_congr_left hmapu]
        simp
      · unfold grpRev
        rw [hfm pid, if_neg hp, List.map_congr_left hmapu]
        simp
      · unfold grpCnt
        rw [hfm pid, if_neg hp, List.map_congr_left hmapu]
        simp
  · rw [if_neg hany]
    have hnew : it.product ∉ acc.map (fun g => g.product) := by
      intro hmem
      rcases List.mem_map.mp hmem with ⟨g, hg, hgp⟩
      exact hany (List.any_eq_true.mpr ⟨g, hg, by simp [hgp]⟩)
    refine ⟨?_, ?_, ?_, ?_⟩
    · rw [List.map_append]
      simp only [List.map_cons, List.map_nil]
      rw [List.nodup_append]
      exact ⟨hnd, List.nodup_singleton _, by simpa using fun h => hnew h⟩
    · unfold grpQty
      rw [List.filter_append, List.map_append, List.sum_append]
      by_cases hp : it.product = pid
      · rw [if_pos hp]
        simp [hp]
      · rw [if_neg hp]
        simp [hp]
    · unfold grpRev
      rw [List.filter_append, List.map_append, List.sum_append]
      by_cases hp : it.product = pid
      · rw [if_pos hp]
        simp [hp]
      · rw [if_neg hp]
        simp [hp]
    · unfold grpCnt
      rw [List.filter_append, List.map_append, List.sum_append]
      by_cases hp : it.product = pid
      · rw [if_pos hp]
        simp [hp]
      · rw [if_neg hp]
        simp [hp]

/-- The whole `$group` stage: starting from an accumulator with
duplicate-free keys, folding the unwound line items keeps keys
duplicate-free and makes each per-product aggregate the accumulator's value
plus that product's sums over the folded items. -/
theorem groupItems_view (its : List SaleItem) :
    ∀ (acc : List TopGroup) (pid : ℕ),
      (acc.map (fun g => g.product)).Nodup →
      ((its.foldl addItem acc).map (fun g => g.product)).Nodup ∧
      grpQty (its.foldl addItem acc) pid = grpQty acc pid + itemsQtyFor its pid ∧
      grpRev (its.foldl addItem acc) pid = grpRev acc pid + itemsRevFor its pid ∧
      grpCnt (its.foldl addItem acc) pid = grpCnt acc pid + itemsCntFor its pid := by
  induction its with
  | nil =>
    intro acc pid hnd
    exact ⟨hnd, by simp [itemsQtyFor], by simp [itemsRevFor], by simp [itemsCntFor]⟩
  | cons it rest ih =>
    intro acc pid hnd
    rw [List.foldl_cons]
    obtain ⟨h1, h2, h3, h4⟩ := addItem_view acc it pid hnd
    obtain ⟨g1, g2, g3, g4⟩ := ih (addItem acc it) pid h1
    refine ⟨g1, ?_, ?_, ?_⟩
    · by_cases hp : it.product = pid
      · have hstep : itemsQtyFor (it :: rest) pid = it.quantity + itemsQtyFor rest pid := by
          unfold itemsQtyFor
          rw [List.filter_cons_of_pos (by simpa using hp)]
          simp
        rw [g2, h2, hstep, if_pos hp]
        omega
      · have hstep : itemsQtyFor (it :: rest) pid = itemsQtyFor rest pid := by
          unfold itemsQtyFor
          rw [List.filter_cons_of_neg (by simpa using hp)]
        rw [g2, h2, hstep, if_neg hp]
        omega
    · by_cases hp : it.product = pid
      · have hstep : itemsRevFor (it :: rest) pid = it.subtotal + itemsRevFor rest pid := by
          unfold itemsRevFor
          rw [List.filter_cons_of_pos (by simpa using hp)]
          simp
        rw [g3, h3, hstep, if_pos hp]
        ring
      · have hstep : itemsRevFor (it :: rest) pid = itemsRevFor rest pid := by
          unfold itemsRevFor
          rw [List.filter_cons_of_neg (by simpa using hp)]
        rw [g3, h3, hstep, if_neg hp]
        ring
    · by_cases hp : it.product = pid
      · have hstep : itemsCntFor (it :: rest) pid = 1 + itemsCntFor rest pid := by
          unfold itemsCntFor
          rw [List.filter_cons_of_pos (by simpa using hp)]
          simp
          omega
        rw [g4, h4, hstep, if_pos hp]
        omega
      · have hstep : itemsCntFor (it :: rest) pid = itemsCntFor rest pid := by
          unfold itemsCntFor
          rw [List.filter_cons_of_neg (by simpa using hp)]
        rw [g4, h4, hstep, if_neg hp]
        omega

/-- C9 counterexample: the claim says ties in total revenue are broken by
total quantity descending (then product id ascending).  In `dbTies` the two
products tie at revenue 10 with quantities 1 (product 2) and 5 (product 1),
and the pipeline — which sorts by `totalRevenue` only — can return product 2
(quantity 1) *before* product 1 (quantity 5), violating the claimed
ordering. -/
theorem topProducts_tie_order_cex :
    ¬ (topProducts dbTies none 10).Pairwise specTopOrder := by
  intro hP
  rw [show topProducts dbTies none 10 =
      [{ productId := 2, productName := "B", totalQuantity := 1, totalRevenue := 10,
         saleCount := 1 },
       { productId := 1, productName := "A", totalQuantity := 5, totalRevenue := 10,
         saleCount := 1 }] from by decide] at hP
  have hrel := (List.pairwise_cons.mp hP).1
    { productId := 1, productName := "A", totalQuantity := 5, totalRevenue := 10,
      saleCount := 1 } (by simp)
  exact absurd hrel (by decide)

/-- C9 (amended): `getTopProducts` groups the line items of non-void sales
in the window by product, `$sum`s quantity, line subtotal and item count per
product, drops products whose document no longer exists, sorts by total
revenue *descending only* — no quantity or product-id tie-breaking, so the
order of revenue ties is not specified — and truncates to `limit`. -/
theorem topProducts_sorted_and_sums (db : DB) (window : Option (ℕ × ℕ)) (limit : ℕ) :
    (topProducts db window limit).Pairwise
      (fun a b => b.totalRevenue ≤ a.totalRevenue) ∧
    (topProducts db window limit).length ≤ limit ∧
    ∀ r ∈ topProducts db window limit,
      (lookupProd db.products r.productId).map (fun p => p.name) = some r.productName ∧
      r.totalQuantity = itemsQtyFor
        ((db.sales.filter (topMatch window)).flatMap (fun s => s.items)) r.productId ∧
      r.totalRevenue = itemsRevFor
        ((db.sales.filter (topMatch window)).flatMap (fun s => s.items)) r.productId ∧
      r.saleCount = itemsCntFor
        ((db.sales.filter (topMatch window)).flatMap (fun s => s.items)) r.productId := by
  have htop : topProducts db window limit =
      ((((db.sales.filter (topMatch window)).flatMap (fun s => s.items)).foldl
          addItem []).filterMap (fun g =>
            (lookupProd db.products g.product).map (fun p =>
              { productId := g.product, productName := p.name,
                totalQuantity := g.totalQuantity, totalRevenue := g.totalRevenue,
                saleCount := g.saleCount })) |> List.insertionSort revDesc).take limit := rfl
  refine ⟨?_, ?_, ?_⟩
  · rw [htop]
    apply List.Pairwise.sublist (List.take_sublist _ _)
    have hs := List.sorted_insertionSort revDesc
      ((((db.sales.filter (topMatch window)).flatMap (fun s => s.items)).foldl
        addItem []).filterMap (fun g =>
          (lookupProd db.products g.product).map (fun p =>
            { productId := g.product, productName := p.name,
              totalQuantity := g.totalQuantity, totalRevenue := g.totalRevenue,
              saleCount := g.saleCount })))
    exact hs.imp (fun hab => hab)
  · rw [htop, List.length_take]
    exact min_le_left _ _
  · intro r hr
    rw [htop] at hr
    have hr2 := (List.take_sublist _ _).subset hr
    have hr3 := (List.perm_insertionSort revDesc _).subset hr2
    rcases List.mem_filterMap.mp hr3 with ⟨g, hg, hfg⟩
    cases hl : lookupProd db.products g.product with
    | none => rw [hl] at hfg; exact absurd hfg (by simp)
    | some p =>
      rw [hl] at hfg
      simp only [Option.map_some', Option.some.injEq] at hfg
      obtain ⟨hgnd, hq, hrv, hc⟩ := groupItems_view
        ((db.sales.filter (topMatch window)).flatMap (fun s => s.items)) [] g.product
        (by simp)
      have hfl := filter_product_eq_singleton hgnd hg
      have hgq : grpQty (((db.sales.filter (topMatch window)).flatMap
          (fun s => s.items)).foldl addItem []) g.product = g.totalQuantity := by
        unfold grpQty
        rw [hfl]
        simp
      have hgr : grpRev (((db.sales.filter (topMatch window)).flatMap
          (fun s => s.items)).foldl addItem []) g.product = g.totalRevenue := by
        unfold grpRev
        rw [hfl]
        simp
      have hgc : grpCnt (((db.sales.filter (topMatch window)).flatMap
          (fun s => s.items)).foldl addItem []) g.product = g.saleCount := by
        unfold grpCnt
        rw [hfl]
        simp
      have hq' : g.totalQuantity = itemsQtyFor
          ((db.sales.filter (topMatch window)).flatMap (fun s => s.items)) g.product := by
        rw [← hgq, hq]
        simp [grpQty]
      have hrv' : g.totalRevenue = itemsRevFor
          ((db.sales.filter (topMatch window)).flatMap (fun s => s.items)) g.product := by
        rw [← hgr, hrv]
        simp [grpRev]
      have hc' : g.saleCount = itemsCntFor
          ((db.sales.filter (topMatch window)).flatMap (fun s => s.items)) g.product := by
        rw [← hgc, hc]
        simp [grpCnt]
      subst hfg
      dsimp only
      exact ⟨by rw [hl]; rfl, hq', hrv', hc'⟩

/-- Witness for C9 (amended) on `dbTies`: the returned rows are sorted by
revenue (both rows have revenue 10), at most 10 rows come back, and the
row of product 2 carries exactly its summed quantity, revenue and item
count. -/
theorem topProducts_sorted_and_sums_witness :
    (topProducts dbTies none 10).Pairwise
      (fun a b => b.totalRevenue ≤ a.totalRevenue) ∧
    (topProducts dbTies none 10).length ≤ 10 ∧
    ({ productId := 2, productName := "B", totalQuantity := 1, totalRevenue := 10,
       saleCount := 1 } : TopRow) ∈ topProducts dbTies none 10 ∧
    (lookupProd dbTies.products 2).map (fun p => p.name) = some "B" ∧
    (1 : ℕ) = itemsQtyFor
      ((dbTies.sales.filter (topMatch none)).flatMap (fun s => s.items)) 2 ∧
    (10 : ℚ) = itemsRevFor
      ((dbTies.sales.filter (topMatch none)).flatMap (fun s => s.items)) 2 ∧
    (1 : ℕ) = itemsCntFor
      ((dbTies.sales.filter (topMatch none)).flatMap (fun s => s.items)) 2 := by
  obtain ⟨h1, h2, h3⟩ := topProducts_sorted_and_sums dbTies none 10
  have hmem : (⟨2, "B", 1, 10, 1⟩ : TopRow) ∈ topProducts dbTies none 10 := by
    decide
  obtain ⟨ha, hb, hc, hd⟩ := h3 _ hmem
  exact ⟨h1, h2, hmem, ha, hb, hc, hd⟩
